import Mathlib

/-!
# ResponsiveAnalogRead: adaptive smoothing filter

A shallow embedding of `src/ResponsiveAnalogRead.cpp`.

Modelling conventions.

* `float` values are elements of an arbitrary linearly ordered field `K` with a floor
  function (`ℚ` for evaluation, `ℝ` for the statements about real numbers); there is no NaN
  and no infinity. The functions that compute with `float` values are given twice. The first
  reading is exact arithmetic, without rounding: the properties stated for real numbers are
  proved on it. The second reading, in the namespace `Rounded`, passes the result of every
  operation on `float` values through a rounding function `rnd`; with `rnd = binary32` it is
  the arithmetic of the target, and with `rnd = id` it is the first reading (`rounded_id`).
  The properties that rounding breaks are refuted on the second reading.
* `int` values are unbounded integers, `unsigned int` values are unbounded naturals; the casts
  `(int)x` and `(unsigned int)x` truncate toward zero.
* `unsigned long` values are naturals and the one `unsigned long` addition of the source
  (`lastActivityMS + sleepDelayMS`) is reduced modulo `2 ^ 32`.
* The two hardware reads, `analogRead(pin)` and `millis()`, are arguments of the functions
  that perform them.
* `ResponsiveAnalogRead.h` is not part of the sources at hand: the three constants it declares
  (`sleepDelayMS`, `sleepActivityThreshold`, `awakeActivityThreshold`) are fields of the state,
  and the initial values it gives to the data members are an argument of the constructor.
-/

/-- The width of `unsigned long` on the target boards: arithmetic on it is modulo `2 ^ 32`. -/
def ULONG_MOD : Nat := 2 ^ 32

/-- The data members of the class `ResponsiveAnalogRead`, together with the three constants of
the header file. -/
structure ResponsiveAnalogRead (K : Type) where
  pin : Int
  sleepEnable : Bool
  snapMultiplier : K
  rawValue : Int
  responsiveValue : Int
  prevResponsiveValue : Int
  responsiveValueHasChanged : Bool
  smoothValue : K
  lastActivityMS : Nat
  sleeping : Bool
  sleepDelayMS : Nat
  sleepActivityThreshold : Nat
  awakeActivityThreshold : Nat

namespace ResponsiveAnalogRead

section Field

variable {K : Type} [LinearOrderedField K]

/-- The function `ResponsiveAnalogRead::snapCurve`, in exact arithmetic. -/
def snapCurve (x : K) : K :=
  let y : K := 1 / (x + 1)
  let y : K := (1 - y) * 2
  if y > 1 then 1 else y

/-- The function `ResponsiveAnalogRead::setSnapMultiplier`. -/
def setSnapMultiplier (s : ResponsiveAnalogRead K) (newMultiplier : K) :
    ResponsiveAnalogRead K :=
  let newMultiplier := if newMultiplier > 1 then 1 else newMultiplier
  let newMultiplier := if newMultiplier < 0 then 0 else newMultiplier
  { s with snapMultiplier := newMultiplier }

/-- The constructor `ResponsiveAnalogRead::ResponsiveAnalogRead`. The argument `init` holds the
values that the data members have when the body of the constructor starts (the header file
sets them); `pinMode` and `digitalWrite` act on the hardware only. -/
def construct (init : ResponsiveAnalogRead K) (pin : Int) (sleepEnable : Bool)
    (snapMultiplier : K) : ResponsiveAnalogRead K :=
  setSnapMultiplier { init with pin := pin, sleepEnable := sleepEnable } snapMultiplier

end Field

section Floor

variable {K : Type} [LinearOrderedField K] [FloorRing K]

/-- The cast `(int)x` of a `float`: the fractional part is discarded (truncation toward zero). -/
def toInt (x : K) : Int :=
  if 0 ≤ x then ⌊x⌋ else ⌈x⌉

/-- The conversion of a `float` to `unsigned int`: the fractional part is discarded. -/
def toUInt (x : K) : Nat :=
  (toInt x).toNat

/-- The function `ResponsiveAnalogRead::getResponsiveValue`, in exact arithmetic, with the
result of `millis()` as the argument `ms`. Returns the value returned by the source function
and the state it leaves. -/
def getResponsiveValue (s : ResponsiveAnalogRead K) (newValue : Int) (ms : Nat) :
    Int × ResponsiveAnalogRead K :=
  let diff : Nat := toUInt |(newValue : K) - s.smoothValue|
  let s : ResponsiveAnalogRead K :=
    if s.sleepEnable then
      let activityThreshold : Nat :=
        if s.sleeping then s.sleepActivityThreshold else s.awakeActivityThreshold
      let s : ResponsiveAnalogRead K :=
        if diff > activityThreshold then { s with lastActivityMS := ms } else s
      { s with sleeping := decide ((s.lastActivityMS + s.sleepDelayMS) % ULONG_MOD < ms) }
    else s
  if s.sleepEnable && s.sleeping then
    (toInt s.smoothValue, s)
  else
    let snap : K := snapCurve ((diff : K) * s.snapMultiplier)
    let snap : K := if s.sleepEnable then snap * (0.8 + 0.2) else snap
    let s : ResponsiveAnalogRead K :=
      { s with smoothValue := s.smoothValue + ((newValue : K) - s.smoothValue) * snap }
    (toInt s.smoothValue, s)

/-- The function `ResponsiveAnalogRead::update`, in exact arithmetic, with the result of
`analogRead(pin)` as the argument `raw` and the result of `millis()` as the argument `ms`. -/
def update (s : ResponsiveAnalogRead K) (raw : Int) (ms : Nat) : ResponsiveAnalogRead K :=
  let s : ResponsiveAnalogRead K := { s with rawValue := raw }
  let s : ResponsiveAnalogRead K := { s with prevResponsiveValue := s.responsiveValue }
  let r := getResponsiveValue s s.rawValue ms
  let s : ResponsiveAnalogRead K := { r.2 with responsiveValue := r.1 }
  { s with responsiveValueHasChanged := decide (s.responsiveValue ≠ s.prevResponsiveValue) }

/-- The states that a program can reach: the constructor builds the first one, then
`setSnapMultiplier` and `update` are called in any order, with any arguments, samples and
clock values. -/
inductive Reachable : ResponsiveAnalogRead K → Prop
  | construct (init : ResponsiveAnalogRead K) (pin : Int) (sleepEnable : Bool)
      (snapMultiplier : K) : Reachable (construct init pin sleepEnable snapMultiplier)
  | setSnapMultiplier (s : ResponsiveAnalogRead K) (newMultiplier : K) :
      Reachable s → Reachable (setSnapMultiplier s newMultiplier)
  | update (s : ResponsiveAnalogRead K) (raw : Int) (ms : Nat) :
      Reachable s → Reachable (update s raw ms)

/-- The polling loop of a caller: the state after `n` calls of `update`, where call number `i`
(counted from `0`) reads the sample `samples i` at the clock value `clock i`. -/
def run (s : ResponsiveAnalogRead K) (samples : Nat → Int) (clock : Nat → Nat) :
    Nat → ResponsiveAnalogRead K
  | 0 => s
  | n + 1 => update (run s samples clock n) (samples n) (clock n)

end Floor

/-- The alternating samples `502, 498, 502, 498, ...` (noise of amplitude `2` around `500`). -/
def noiseSamples (n : Nat) : Int :=
  if n % 2 = 0 then 502 else 498

/-- A state over the rational numbers for the evaluation of the functions: every data member
is zero or false, and the three constants of the header file have the illustrative values
`200`, `20` and `5`. -/
def zeroState : ResponsiveAnalogRead ℚ where
  pin := 0
  sleepEnable := false
  snapMultiplier := 0
  rawValue := 0
  responsiveValue := 0
  prevResponsiveValue := 0
  responsiveValueHasChanged := false
  smoothValue := 0
  lastActivityMS := 0
  sleeping := false
  sleepDelayMS := 200
  sleepActivityThreshold := 20
  awakeActivityThreshold := 5

/-- The state `zeroState` with `snapMultiplier = 1 / 100`: sleep disabled, slow smoothing. -/
def slowState : ResponsiveAnalogRead ℚ :=
  { zeroState with snapMultiplier := 1 / 100 }

/-- The state `zeroState` with `snapMultiplier = 1`: sleep disabled, `smoothValue = 0`. -/
def snapState : ResponsiveAnalogRead ℚ :=
  { zeroState with snapMultiplier := 1 }

/-- An awake state with sleep enabled, `smoothValue = 500.9`, `responsiveValue = 500` and the
last activity at time `0`. -/
def idleState : ResponsiveAnalogRead ℚ :=
  { zeroState with
    sleepEnable := true
    snapMultiplier := 1 / 100
    smoothValue := 500.9
    responsiveValue := 500 }

/-- The state `idleState`, asleep. -/
def asleepState : ResponsiveAnalogRead ℚ :=
  { idleState with sleeping := true }

/-- A state with sleep disabled, `snapMultiplier = 0.01` and both `smoothValue` and
`responsiveValue` at `500`. -/
def noiseState : ResponsiveAnalogRead ℚ :=
  { zeroState with
    snapMultiplier := 0.01
    smoothValue := 500
    responsiveValue := 500 }

/-- A state with sleep disabled, `snapMultiplier = 1` and `smoothValue = 1 / 2`. -/
def halfState : ResponsiveAnalogRead ℚ :=
  { zeroState with
    snapMultiplier := 1
    smoothValue := 1 / 2 }

/-- An awake state with sleep enabled, `snapMultiplier = 1` and `smoothValue = 0`. -/
def wrapState : ResponsiveAnalogRead ℚ :=
  { zeroState with
    sleepEnable := true
    snapMultiplier := 1 }

/-- The state built by the constructor from `zeroState` with pin `3`, sleep enabled and the
multiplier `7`. -/
def builtState : ResponsiveAnalogRead ℚ :=
  construct zeroState 3 true 7

end ResponsiveAnalogRead

namespace ResponsiveAnalogRead

section Binary32

variable {K : Type} [LinearOrderedField K] [FloorRing K]

/-- Rounding to the nearest integer, a tie going to the even one. -/
def roundHalfEven (x : K) : Int :=
  let f : Int := ⌊x⌋
  if x - (f : K) < 1 / 2 then f
  else if 1 / 2 < x - (f : K) then f + 1
  else if f % 2 = 0 then f else f + 1

/-- The value of the type `float` (IEEE 754 binary32: 24 significant bits, least exponent
`-126`, subnormal numbers below it) that is nearest to `x`, a tie going to the even
significand. Overflow to infinity is not represented: the function is the rounding of the
hardware for `|x| < 2 ^ 128`. -/
def binary32 (x : K) : K :=
  let e : Int := max (Int.log 2 |x|) (-126)
  (roundHalfEven (x / (2 : K) ^ (e - 23)) : K) * (2 : K) ^ (e - 23)

end Binary32

/-! ## The functions with rounded arithmetic

The same functions once more, with the result of every operation on `float` values passed
through a rounding function `rnd`: `rnd = binary32` is the arithmetic of the target, where
`double` has the 32 bits of `float`, and `rnd = id` is the exact arithmetic of the definitions
above. Comparisons, negation and the constants `1.0` and `2.0` are exact. -/

namespace Rounded

variable {K : Type} [LinearOrderedField K] [FloorRing K]

/-- The function `ResponsiveAnalogRead::snapCurve`, every operation rounded by `rnd`. -/
def snapCurve (rnd : K → K) (x : K) : K :=
  let y : K := rnd (1 / rnd (x + 1))
  let y : K := rnd (rnd (1 - y) * 2)
  if y > 1 then 1 else y

/-- The function `ResponsiveAnalogRead::getResponsiveValue`, every operation on `float`
values rounded by `rnd`, the conversions of `newValue` and `diff` to `float` included. -/
def getResponsiveValue (rnd : K → K) (s : ResponsiveAnalogRead K) (newValue : Int)
    (ms : Nat) : Int × ResponsiveAnalogRead K :=
  let diff : Nat := toUInt |rnd (rnd (newValue : K) - s.smoothValue)|
  let s : ResponsiveAnalogRead K :=
    if s.sleepEnable then
      let activityThreshold : Nat :=
        if s.sleeping then s.sleepActivityThreshold else s.awakeActivityThreshold
      let s : ResponsiveAnalogRead K :=
        if diff > activityThreshold then { s with lastActivityMS := ms } else s
      { s with sleeping := decide ((s.lastActivityMS + s.sleepDelayMS) % ULONG_MOD < ms) }
    else s
  if s.sleepEnable && s.sleeping then
    (toInt s.smoothValue, s)
  else
    let snap : K := snapCurve rnd (rnd (rnd (diff : K) * s.snapMultiplier))
    let snap : K := if s.sleepEnable then rnd (snap * rnd (rnd 0.8 + rnd 0.2)) else snap
    let s : ResponsiveAnalogRead K :=
      { s with
        smoothValue :=
          rnd (s.smoothValue + rnd (rnd (rnd (newValue : K) - s.smoothValue) * snap)) }
    (toInt s.smoothValue, s)

/-- The function `ResponsiveAnalogRead::update` over the rounded `getResponsiveValue`. -/
def update (rnd : K → K) (s : ResponsiveAnalogRead K) (raw : Int) (ms : Nat) :
    ResponsiveAnalogRead K :=
  let s : ResponsiveAnalogRead K := { s with rawValue := raw }
  let s : ResponsiveAnalogRead K := { s with prevResponsiveValue := s.responsiveValue }
  let r := getResponsiveValue rnd s s.rawValue ms
  let s : ResponsiveAnalogRead K := { r.2 with responsiveValue := r.1 }
  { s with responsiveValueHasChanged := decide (s.responsiveValue ≠ s.prevResponsiveValue) }

/-- The polling loop over the rounded `update`. -/
def run (rnd : K → K) (s : ResponsiveAnalogRead K) (samples : Nat → Int)
    (clock : Nat → Nat) : Nat → ResponsiveAnalogRead K
  | 0 => s
  | n + 1 => update rnd (run rnd s samples clock n) (samples n) (clock n)

end Rounded

end ResponsiveAnalogRead


/-! # Properties -/

namespace ResponsiveAnalogRead

section Field

variable {K : Type} [LinearOrderedField K]

/-! ## The snap curve -/

/-- On the non-negative numbers the hyperbola of `snapCurve` is `2 * x / (x + 1)`. -/
theorem snapCurve_hyperbola {x : K} (hx : 0 ≤ x) : (1 - 1 / (x + 1)) * 2 = 2 * x / (x + 1) := by
  have h : x + 1 ≠ 0 := by positivity
  field_simp
  ring

/-- Below `1` the cap of `snapCurve` is not reached. -/
theorem snapCurve_of_lt_one {x : K} (hx : 0 ≤ x) (h1 : x < 1) :
    snapCurve x = 2 * x / (x + 1) := by
  have hpos : (0 : K) < x + 1 := by linarith
  have hle : ¬ (2 * x / (x + 1) > 1) := by
    rw [gt_iff_lt, lt_div_iff₀ hpos]
    linarith
  simp only [snapCurve, snapCurve_hyperbola hx, if_neg hle]

/-- From `1` on, `snapCurve` is `1`. -/
theorem snapCurve_of_one_le {x : K} (h1 : 1 ≤ x) : snapCurve x = 1 := by
  have hx : (0 : K) ≤ x := by linarith
  have hpos : (0 : K) < x + 1 := by linarith
  simp only [snapCurve, snapCurve_hyperbola hx]
  split_ifs with h
  · rfl
  · have hle : 2 * x / (x + 1) ≤ 1 := not_lt.mp h
    rw [div_le_iff₀ hpos] at hle
    have hx1 : x = 1 := by linarith
    subst hx1
    norm_num

/-- The values of `snapCurve` below `1` are below `1`. -/
theorem snapCurve_lt_one {x : K} (hx : 0 ≤ x) (h1 : x < 1) : snapCurve x < 1 := by
  have hpos : (0 : K) < x + 1 := by linarith
  rw [snapCurve_of_lt_one hx h1, div_lt_iff₀ hpos]
  linarith

/-- The values of `snapCurve` on the non-negative numbers are non-negative. -/
theorem snapCurve_nonneg {x : K} (hx : 0 ≤ x) : 0 ≤ snapCurve x := by
  rcases lt_or_le x 1 with h1 | h1
  · rw [snapCurve_of_lt_one hx h1]
    positivity
  · rw [snapCurve_of_one_le h1]
    exact zero_le_one

/-- The values of `snapCurve` on the non-negative numbers are at most `1`. -/
theorem snapCurve_le_one {x : K} (hx : 0 ≤ x) : snapCurve x ≤ 1 := by
  rcases lt_or_le x 1 with h1 | h1
  · exact (snapCurve_lt_one hx h1).le
  · exact (snapCurve_of_one_le h1).le

/-- The function `snapCurve` is non-decreasing on the non-negative numbers. -/
theorem snapCurve_mono {x y : K} (hx : 0 ≤ x) (hxy : x ≤ y) : snapCurve x ≤ snapCurve y := by
  rcases lt_or_le y 1 with hy | hy
  · have hx1 : x < 1 := lt_of_le_of_lt hxy hy
    have hxpos : (0 : K) < x + 1 := by linarith
    have hypos : (0 : K) < y + 1 := by linarith
    rw [snapCurve_of_lt_one hx hx1, snapCurve_of_lt_one (hx.trans hxy) hy,
      div_le_iff₀ hxpos, div_mul_eq_mul_div, le_div_iff₀ hypos]
    nlinarith
  · rw [snapCurve_of_one_le hy]
    exact snapCurve_le_one hx

/-- The boost factor of line 93 is `1`. -/
theorem boost_eq_one : (0.8 + 0.2 : K) = 1 := by norm_num

end Field

section Floor

variable {K : Type} [LinearOrderedField K] [FloorRing K]

/-! ## The casts -/

/-- The cast of an integer is that integer. -/
theorem toInt_intCast (n : Int) : toInt (n : K) = n := by
  unfold toInt
  split_ifs <;> simp

/-- The cast `(int)x` truncates toward zero: the result is no larger in absolute value
than `x` and is less than `1` away from it. -/
theorem toInt_trunc (x : K) :
    |((toInt x : Int) : K)| ≤ |x| ∧ |x - ((toInt x : Int) : K)| < 1 := by
  unfold toInt
  split_ifs with h
  · have h1 : ((⌊x⌋ : Int) : K) ≤ x := Int.floor_le x
    have h2 : x < ((⌊x⌋ : Int) : K) + 1 := Int.lt_floor_add_one x
    have h3 : (0 : K) ≤ ((⌊x⌋ : Int) : K) := by exact_mod_cast Int.floor_nonneg.mpr h
    rw [abs_of_nonneg h3, abs_of_nonneg h, abs_of_nonneg (by linarith)]
    constructor <;> linarith
  · have hx : x < 0 := not_le.mp h
    have h1 : x ≤ ((⌈x⌉ : Int) : K) := Int.le_ceil x
    have h2 : ((⌈x⌉ : Int) : K) < x + 1 := Int.ceil_lt_add_one x
    have h3 : ((⌈x⌉ : Int) : K) ≤ 0 := by
      exact_mod_cast Int.ceil_le.mpr (by simpa using hx.le)
    rw [abs_of_nonpos h3, abs_of_neg hx, abs_of_nonpos (by linarith)]
    constructor <;> linarith

/-- On a non-negative number the conversion to `unsigned int` is the floor. -/
theorem toUInt_le {x : K} (hx : 0 ≤ x) : ((toUInt x : Nat) : K) ≤ x := by
  unfold toUInt toInt
  rw [if_pos hx]
  have h0 : 0 ≤ ⌊x⌋ := Int.floor_nonneg.mpr hx
  have h1 : ((⌊x⌋.toNat : Nat) : Int) = ⌊x⌋ := Int.toNat_of_nonneg h0
  have h2 : ((⌊x⌋.toNat : Nat) : K) = ((⌊x⌋ : Int) : K) := by
    rw [← Int.cast_natCast, h1]
  rw [h2]
  exact Int.floor_le x

/-- A number between the integer `n ≥ 0` and `n + 1` is cast to `n`. -/
theorem toInt_eq_of_nonneg {x : K} {n : Int} (hn : 0 ≤ n) (h1 : (n : K) ≤ x)
    (h2 : x < (n : K) + 1) : toInt x = n := by
  have hx : (0 : K) ≤ x := le_trans (by exact_mod_cast hn) h1
  unfold toInt
  rw [if_pos hx]
  exact Int.floor_eq_iff.mpr ⟨h1, h2⟩

/-- A number between `n - 1` and the integer `n ≤ 0` is cast to `n`. -/
theorem toInt_eq_of_nonpos {x : K} {n : Int} (hx : x < 0) (h1 : (n : K) - 1 < x)
    (h2 : x ≤ (n : K)) : toInt x = n := by
  unfold toInt
  rw [if_neg (not_le.mpr hx)]
  exact Int.ceil_eq_iff.mpr ⟨h1, h2⟩

/-- The conversion of a natural number to `unsigned int` is that number. -/
theorem toUInt_natCast (n : Nat) : toUInt (n : K) = n := by
  have h : toInt (n : K) = (n : Int) := by
    exact_mod_cast toInt_intCast (K := K) (n : Int)
  unfold toUInt
  rw [h]
  exact Int.toNat_natCast n

/-! ## One call of `getResponsiveValue` -/

/-- The value returned by `getResponsiveValue` is the cast of the new `smoothValue`. -/
theorem getResponsiveValue_fst (s : ResponsiveAnalogRead K) (newValue : Int) (ms : Nat) :
    (getResponsiveValue s newValue ms).1 =
      toInt (getResponsiveValue s newValue ms).2.smoothValue := by
  unfold getResponsiveValue
  simp only []
  split_ifs <;> rfl

/-- The new `smoothValue`: unchanged on the early exit, moved by the snap factor otherwise. -/
theorem getResponsiveValue_smoothValue (s : ResponsiveAnalogRead K) (newValue : Int)
    (ms : Nat) :
    (getResponsiveValue s newValue ms).2.smoothValue =
      if (s.sleepEnable && (getResponsiveValue s newValue ms).2.sleeping) = true then
        s.smoothValue
      else s.smoothValue + ((newValue : K) - s.smoothValue) *
        snapCurve ((toUInt |(newValue : K) - s.smoothValue| : Nat) * s.snapMultiplier) := by
  unfold getResponsiveValue
  simp only [boost_eq_one, mul_one]
  split_ifs <;> simp_all

/-- The definition of `update`, unfolded. -/
theorem update_eq (s : ResponsiveAnalogRead K) (raw : Int) (ms : Nat) :
    update s raw ms =
      { (getResponsiveValue
            { s with rawValue := raw, prevResponsiveValue := s.responsiveValue } raw ms).2 with
        responsiveValue := (getResponsiveValue
            { s with rawValue := raw, prevResponsiveValue := s.responsiveValue } raw ms).1
        responsiveValueHasChanged := decide ((getResponsiveValue
            { s with rawValue := raw, prevResponsiveValue := s.responsiveValue } raw ms).1 ≠
          (getResponsiveValue { s with rawValue := raw, prevResponsiveValue := s.responsiveValue }
            raw ms).2.prevResponsiveValue) } :=
  rfl

/-- The fields `rawValue` and `prevResponsiveValue` are not read by `getResponsiveValue`. -/
theorem getResponsiveValue_frame (s : ResponsiveAnalogRead K) (a b newValue : Int) (ms : Nat) :
    getResponsiveValue { s with rawValue := a, prevResponsiveValue := b } newValue ms =
      ((getResponsiveValue s newValue ms).1,
        { (getResponsiveValue s newValue ms).2 with rawValue := a, prevResponsiveValue := b }) := by
  unfold getResponsiveValue
  simp only []
  split_ifs <;> simp_all

/-- The state that `update` leaves, in terms of `getResponsiveValue` on the state before. -/
theorem update_eq_of_getResponsiveValue (s : ResponsiveAnalogRead K) (raw : Int) (ms : Nat) :
    update s raw ms =
      { (getResponsiveValue s raw ms).2 with
        rawValue := raw
        prevResponsiveValue := s.responsiveValue
        responsiveValue := (getResponsiveValue s raw ms).1
        responsiveValueHasChanged :=
          decide ((getResponsiveValue s raw ms).1 ≠ s.responsiveValue) } := by
  rw [update_eq, getResponsiveValue_frame]

/-- A non-negative number between the natural number `n` and `n + 1` is converted to `n`. -/
theorem toUInt_eq {x : K} {n : Nat} (h1 : (n : K) ≤ x) (h2 : x < (n : K) + 1) :
    toUInt x = n := by
  have h : toInt x = (n : Int) :=
    toInt_eq_of_nonneg (Int.natCast_nonneg n) (by exact_mod_cast h1) (by exact_mod_cast h2)
  unfold toUInt
  rw [h]
  exact Int.toNat_natCast n

/-- The configuration is not written by `getResponsiveValue`. -/
theorem getResponsiveValue_config (s : ResponsiveAnalogRead K) (newValue : Int) (ms : Nat) :
    (getResponsiveValue s newValue ms).2.snapMultiplier = s.snapMultiplier ∧
      (getResponsiveValue s newValue ms).2.sleepEnable = s.sleepEnable ∧
      (getResponsiveValue s newValue ms).2.sleepDelayMS = s.sleepDelayMS ∧
      (getResponsiveValue s newValue ms).2.sleepActivityThreshold = s.sleepActivityThreshold ∧
      (getResponsiveValue s newValue ms).2.awakeActivityThreshold =
        s.awakeActivityThreshold := by
  unfold getResponsiveValue
  simp only []
  split_ifs <;> exact ⟨rfl, rfl, rfl, rfl, rfl⟩

/-! ## The claims on `getResponsiveValue` and `update` -/

/-- Claim C1. The value returned by `getResponsiveValue`, which `update` stores in
`responsiveValue`, is the new `smoothValue` truncated toward zero, on the early exit and after
the smoothing step alike; the cast is no larger in absolute value than its argument and less
than `1` away from it, so `500.9` gives `500` (and `-500.9` gives `-500`). -/
theorem C1_output_is_truncated_smoothValue (s : ResponsiveAnalogRead K) (newValue : Int)
    (ms : Nat) :
    (getResponsiveValue s newValue ms).1 =
        toInt (getResponsiveValue s newValue ms).2.smoothValue ∧
      (update s newValue ms).responsiveValue = toInt (update s newValue ms).smoothValue ∧
      (∀ x : K, |((toInt x : Int) : K)| ≤ |x| ∧ |x - ((toInt x : Int) : K)| < 1) ∧
      toInt (500.9 : K) = 500 ∧ toInt (-500.9 : K) = -500 := by
  refine ⟨getResponsiveValue_fst s newValue ms, ?_, toInt_trunc, ?_, ?_⟩
  · rw [update_eq]
    exact getResponsiveValue_fst _ _ _
  · exact toInt_eq_of_nonneg (by norm_num) (by norm_num) (by norm_num)
  · exact toInt_eq_of_nonpos (by norm_num) (by norm_num) (by norm_num)

/-- The new `smoothValue` is the old one moved toward the sample by a factor in `[0, 1]`. -/
theorem getResponsiveValue_smoothValue_convex (s : ResponsiveAnalogRead K) (newValue : Int)
    (ms : Nat) (h0 : 0 ≤ s.snapMultiplier) :
    ∃ t : K, 0 ≤ t ∧ t ≤ 1 ∧ (getResponsiveValue s newValue ms).2.smoothValue =
      s.smoothValue + ((newValue : K) - s.smoothValue) * t := by
  rw [getResponsiveValue_smoothValue]
  split_ifs
  · exact ⟨0, le_rfl, zero_le_one, by ring⟩
  · have hx : (0 : K) ≤ (toUInt |(newValue : K) - s.smoothValue| : Nat) * s.snapMultiplier :=
      mul_nonneg (Nat.cast_nonneg _) h0
    exact ⟨_, snapCurve_nonneg hx, snapCurve_le_one hx, rfl⟩

/-- Claim C2. Monotone approach without overshoot: when `snapMultiplier` is in `[0, 1]`, the
`smoothValue` after `getResponsiveValue` lies in the closed interval between the old
`smoothValue` and `newValue`, so `|newValue - smoothValue|` does not increase across a call,
with sleep enabled or not. -/
theorem C2_monotone_approach (s : ResponsiveAnalogRead K) (newValue : Int) (ms : Nat)
    (h0 : 0 ≤ s.snapMultiplier) (_h1 : s.snapMultiplier ≤ 1) :
    min s.smoothValue (newValue : K) ≤ (getResponsiveValue s newValue ms).2.smoothValue ∧
      (getResponsiveValue s newValue ms).2.smoothValue ≤ max s.smoothValue (newValue : K) ∧
      |(newValue : K) - (getResponsiveValue s newValue ms).2.smoothValue| ≤
        |(newValue : K) - s.smoothValue| ∧
      |(newValue : K) - (update s newValue ms).smoothValue| ≤
        |(newValue : K) - s.smoothValue| := by
  have key : ∀ s : ResponsiveAnalogRead K, 0 ≤ s.snapMultiplier →
      min s.smoothValue (newValue : K) ≤ (getResponsiveValue s newValue ms).2.smoothValue ∧
      (getResponsiveValue s newValue ms).2.smoothValue ≤ max s.smoothValue (newValue : K) ∧
      |(newValue : K) - (getResponsiveValue s newValue ms).2.smoothValue| ≤
        |(newValue : K) - s.smoothValue| := by
    intro s h0
    obtain ⟨t, ht0, ht1, ht⟩ := getResponsiveValue_smoothValue_convex s newValue ms h0
    rw [ht]
    have e : (newValue : K) - (s.smoothValue + ((newValue : K) - s.smoothValue) * t) =
        ((newValue : K) - s.smoothValue) * (1 - t) := by ring
    have ht' : (0 : K) ≤ 1 - t := by linarith
    refine ⟨?_, ?_, ?_⟩
    · rcases le_total s.smoothValue (newValue : K) with h | h
      · rw [min_eq_left h]
        nlinarith
      · rw [min_eq_right h]
        nlinarith
    · rcases le_total s.smoothValue (newValue : K) with h | h
      · rw [max_eq_right h]
        nlinarith
      · rw [max_eq_left h]
        nlinarith
    · rw [e, abs_mul, abs_of_nonneg ht']
      have := abs_nonneg ((newValue : K) - s.smoothValue)
      nlinarith
  obtain ⟨k1, k2, k3⟩ := key s h0
  refine ⟨k1, k2, k3, ?_⟩
  rw [update_eq]
  exact (key { s with rawValue := newValue, prevResponsiveValue := s.responsiveValue } h0).2.2

/-- Claim C4. Sleep activation and freeze: with sleep enabled, when `diff` does not exceed the
active threshold (`sleepActivityThreshold` when sleeping, `awakeActivityThreshold` otherwise)
and `lastActivityMS + sleepDelayMS < ms` without overflow, the call leaves `sleeping = true`,
leaves `smoothValue` and `lastActivityMS` as they were and returns the truncation of the
unchanged `smoothValue`; so when `responsiveValue` was that truncation already, `update`
reports no change. -/
theorem C4_sleep_activation_freezes (s : ResponsiveAnalogRead K) (newValue : Int) (ms : Nat)
    (hen : s.sleepEnable = true)
    (hdiff : toUInt |(newValue : K) - s.smoothValue| ≤
      (if s.sleeping = true then s.sleepActivityThreshold else s.awakeActivityThreshold))
    (hov : s.lastActivityMS + s.sleepDelayMS < ULONG_MOD)
    (hlt : s.lastActivityMS + s.sleepDelayMS < ms) :
    (getResponsiveValue s newValue ms).2.sleeping = true ∧
      (getResponsiveValue s newValue ms).2.smoothValue = s.smoothValue ∧
      (getResponsiveValue s newValue ms).2.lastActivityMS = s.lastActivityMS ∧
      (getResponsiveValue s newValue ms).1 = toInt s.smoothValue ∧
      (update s newValue ms).sleeping = true ∧
      (update s newValue ms).smoothValue = s.smoothValue ∧
      (update s newValue ms).lastActivityMS = s.lastActivityMS ∧
      (update s newValue ms).responsiveValue = toInt s.smoothValue ∧
      (s.responsiveValue = toInt s.smoothValue →
        (update s newValue ms).responsiveValueHasChanged = false) := by
  have hmod : (s.lastActivityMS + s.sleepDelayMS) % ULONG_MOD < ms := by
    rw [Nat.mod_eq_of_lt hov]
    exact hlt
  have key : getResponsiveValue s newValue ms =
      (toInt s.smoothValue, { s with sleeping := true }) := by
    unfold getResponsiveValue
    simp only [hen, if_true, not_lt.mpr hdiff, if_false, hmod, decide_True, Bool.and_self]
  rw [update_eq_of_getResponsiveValue, key]
  refine ⟨rfl, rfl, rfl, rfl, rfl, rfl, rfl, rfl, fun h => ?_⟩
  simp [h]

/-- Claim C5. Sleep deactivation on the same call: with sleep enabled and the filter asleep, a
sample with `diff > sleepActivityThreshold`, at a time `ms` with `ms + sleepDelayMS` not
overflowing, sets `lastActivityMS = ms`, leaves `sleeping = false` and performs the smoothing
update `smoothValue += (newValue - smoothValue) * snap` with
`snap = snapCurve (diff * snapMultiplier)`, returning the truncation of the new value. -/
theorem C5_sleep_deactivation (s : ResponsiveAnalogRead K) (newValue : Int) (ms : Nat)
    (hen : s.sleepEnable = true) (hsl : s.sleeping = true)
    (hdiff : s.sleepActivityThreshold < toUInt |(newValue : K) - s.smoothValue|)
    (hov : ms + s.sleepDelayMS < ULONG_MOD) :
    (getResponsiveValue s newValue ms).2.lastActivityMS = ms ∧
      (getResponsiveValue s newValue ms).2.sleeping = false ∧
      (getResponsiveValue s newValue ms).2.smoothValue =
        s.smoothValue + ((newValue : K) - s.smoothValue) *
          snapCurve ((toUInt |(newValue : K) - s.smoothValue| : Nat) * s.snapMultiplier) ∧
      (getResponsiveValue s newValue ms).1 =
        toInt (s.smoothValue + ((newValue : K) - s.smoothValue) *
          snapCurve ((toUInt |(newValue : K) - s.smoothValue| : Nat) * s.snapMultiplier)) ∧
      (update s newValue ms).sleeping = false := by
  have hmod : ¬ (ms + s.sleepDelayMS) % ULONG_MOD < ms := by
    rw [Nat.mod_eq_of_lt hov]
    omega
  have key : getResponsiveValue s newValue ms =
      (toInt (s.smoothValue + ((newValue : K) - s.smoothValue) *
          snapCurve ((toUInt |(newValue : K) - s.smoothValue| : Nat) * s.snapMultiplier)),
        { s with
          lastActivityMS := ms
          sleeping := false
          smoothValue := s.smoothValue + ((newValue : K) - s.smoothValue) *
            snapCurve
              ((toUInt |(newValue : K) - s.smoothValue| : Nat) * s.snapMultiplier) }) := by
    unfold getResponsiveValue
    simp [hen, hsl, hdiff, hmod, boost_eq_one]
  rw [update_eq_of_getResponsiveValue, key]
  exact ⟨rfl, rfl, rfl, rfl, rfl⟩

/-- Claim C6. After `setSnapMultiplier newMultiplier`, and after construction with that
multiplier, the stored `snapMultiplier` is `newMultiplier` clamped to `[0, 1]`;
`setSnapMultiplier` changes no other field; and `snapMultiplier` is in `[0, 1]` in every state
reachable from construction by calls of `setSnapMultiplier` and `update`. -/
theorem C6_snapMultiplier_clamped :
    (∀ (s : ResponsiveAnalogRead K) (newMultiplier : K),
        setSnapMultiplier s newMultiplier =
          { s with snapMultiplier := max 0 (min newMultiplier 1) }) ∧
      (∀ (init : ResponsiveAnalogRead K) (pin : Int) (sleepEnable : Bool) (newMultiplier : K),
        (construct init pin sleepEnable newMultiplier).snapMultiplier =
          max 0 (min newMultiplier 1)) ∧
      (∀ s : ResponsiveAnalogRead K, Reachable s →
        0 ≤ s.snapMultiplier ∧ s.snapMultiplier ≤ 1) := by
  have hset : ∀ (s : ResponsiveAnalogRead K) (newMultiplier : K),
      setSnapMultiplier s newMultiplier =
        { s with snapMultiplier := max 0 (min newMultiplier 1) } := by
    intro s m
    have hm : (if (if m > 1 then 1 else m) < 0 then 0 else if m > 1 then 1 else m) =
        max 0 (min m 1) := by
      rcases lt_or_le 1 m with h | h
      · rw [if_pos h, if_neg (by norm_num), min_eq_right h.le, max_eq_right zero_le_one]
      · rw [if_neg (not_lt.mpr h), min_eq_left h]
        rcases lt_or_le m 0 with h' | h'
        · rw [if_pos h', max_eq_left h'.le]
        · rw [if_neg (not_lt.mpr h'), max_eq_right h']
    unfold setSnapMultiplier
    simp only [hm]
  have hrange : ∀ m : K, 0 ≤ max 0 (min m 1) ∧ max 0 (min m 1) ≤ 1 := fun m =>
    ⟨le_max_left _ _, max_le zero_le_one (min_le_right _ _)⟩
  refine ⟨hset, fun init pin en m => ?_, fun s hs => ?_⟩
  · unfold construct
    rw [hset]
  · induction hs with
    | construct init pin en m =>
      unfold construct
      rw [hset]
      exact hrange m
    | setSnapMultiplier s m _ _ =>
      rw [hset]
      exact hrange m
    | update s raw ms _ ih =>
      have h : (update s raw ms).snapMultiplier = s.snapMultiplier := by
        rw [update_eq_of_getResponsiveValue]
        exact (getResponsiveValue_config s raw ms).1
      rw [h]
      exact ih

end Floor


/-- Witness of C2: multiplier `1 / 100`, estimate `0`, sample `10`. -/
theorem C2_monotone_approach_witness :
    (0 : ℚ) ≤ slowState.snapMultiplier ∧ slowState.snapMultiplier ≤ 1 ∧
      (min slowState.smoothValue ((10 : Int) : ℚ) ≤
          (getResponsiveValue slowState 10 7).2.smoothValue ∧
        (getResponsiveValue slowState 10 7).2.smoothValue ≤
          max slowState.smoothValue ((10 : Int) : ℚ) ∧
        |((10 : Int) : ℚ) - (getResponsiveValue slowState 10 7).2.smoothValue| ≤
          |((10 : Int) : ℚ) - slowState.smoothValue| ∧
        |((10 : Int) : ℚ) - (update slowState 10 7).smoothValue| ≤
          |((10 : Int) : ℚ) - slowState.smoothValue|) :=
  ⟨by norm_num [slowState, zeroState], by norm_num [slowState, zeroState],
    C2_monotone_approach slowState 10 7 (by norm_num [slowState, zeroState])
      (by norm_num [slowState, zeroState])⟩

/-- In `idleState` the sample `502` has `diff = 1`. -/
theorem idleState_diff : toUInt |((502 : Int) : ℚ) - idleState.smoothValue| = 1 := by
  have habs : |((502 : Int) : ℚ) - idleState.smoothValue| = 11 / 10 := by
    norm_num [idleState, zeroState]
  rw [habs]
  exact toUInt_eq (by norm_num) (by norm_num)

/-- In `asleepState` the sample `600` has `diff = 99`. -/
theorem asleepState_diff : toUInt |((600 : Int) : ℚ) - asleepState.smoothValue| = 99 := by
  have habs : |((600 : Int) : ℚ) - asleepState.smoothValue| = 991 / 10 := by
    norm_num [asleepState, idleState, zeroState]
  rw [habs]
  exact toUInt_eq (by norm_num) (by norm_num)

/-- Witness of C4: the awake state `idleState`, whose last activity was at time `0`, receives
the sample `502` (`diff = 1`, threshold `5`) at time `1000`, later than the delay `200`. -/
theorem C4_sleep_activation_freezes_witness :
    idleState.sleepEnable = true ∧
      toUInt |((502 : Int) : ℚ) - idleState.smoothValue| ≤ idleState.awakeActivityThreshold ∧
      idleState.lastActivityMS + idleState.sleepDelayMS < ULONG_MOD ∧
      idleState.lastActivityMS + idleState.sleepDelayMS < 1000 ∧
      (getResponsiveValue idleState 502 1000).2.sleeping = true ∧
      (getResponsiveValue idleState 502 1000).2.smoothValue = idleState.smoothValue ∧
      (getResponsiveValue idleState 502 1000).2.lastActivityMS = idleState.lastActivityMS ∧
      (getResponsiveValue idleState 502 1000).1 = toInt idleState.smoothValue ∧
      (update idleState 502 1000).sleeping = true ∧
      (update idleState 502 1000).smoothValue = idleState.smoothValue ∧
      (update idleState 502 1000).lastActivityMS = idleState.lastActivityMS ∧
      (update idleState 502 1000).responsiveValue = toInt idleState.smoothValue ∧
      (idleState.responsiveValue = toInt idleState.smoothValue →
        (update idleState 502 1000).responsiveValueHasChanged = false) :=
  ⟨rfl, by rw [idleState_diff]; simp [idleState, zeroState],
    by simp [idleState, zeroState, ULONG_MOD], by simp [idleState, zeroState],
    C4_sleep_activation_freezes idleState 502 1000 rfl
      (by rw [idleState_diff]; simp [idleState, zeroState])
      (by simp [idleState, zeroState, ULONG_MOD]) (by simp [idleState, zeroState])⟩

/-- Witness of C5: the sleeping state `asleepState` receives the sample `600` (`diff = 99`,
threshold `20`) at time `1000`. -/
theorem C5_sleep_deactivation_witness :
    asleepState.sleepEnable = true ∧ asleepState.sleeping = true ∧
      asleepState.sleepActivityThreshold <
        toUInt |((600 : Int) : ℚ) - asleepState.smoothValue| ∧
      1000 + asleepState.sleepDelayMS < ULONG_MOD ∧
      (getResponsiveValue asleepState 600 1000).2.lastActivityMS = 1000 ∧
      (getResponsiveValue asleepState 600 1000).2.sleeping = false ∧
      (getResponsiveValue asleepState 600 1000).2.smoothValue =
        asleepState.smoothValue + (((600 : Int) : ℚ) - asleepState.smoothValue) *
          snapCurve ((toUInt |((600 : Int) : ℚ) - asleepState.smoothValue| : Nat) *
            asleepState.snapMultiplier) ∧
      (getResponsiveValue asleepState 600 1000).1 =
        toInt (asleepState.smoothValue + (((600 : Int) : ℚ) - asleepState.smoothValue) *
          snapCurve ((toUInt |((600 : Int) : ℚ) - asleepState.smoothValue| : Nat) *
            asleepState.snapMultiplier)) ∧
      (update asleepState 600 1000).sleeping = false :=
  ⟨rfl, rfl, by rw [asleepState_diff]; simp [asleepState, idleState, zeroState],
    by simp [asleepState, idleState, zeroState, ULONG_MOD],
    C5_sleep_deactivation asleepState 600 1000 rfl rfl
      (by rw [asleepState_diff]; simp [asleepState, idleState, zeroState])
      (by simp [asleepState, idleState, zeroState, ULONG_MOD])⟩

/-- Witness of C6: a state built by the constructor with the multiplier `7`, then
`setSnapMultiplier (-2)`, then one `update`. -/
theorem C6_snapMultiplier_clamped_witness :
    Reachable (update (setSnapMultiplier (construct zeroState 3 true 7) (-2)) 10 5) ∧
      0 ≤ (update (setSnapMultiplier (construct zeroState 3 true 7) (-2)) 10 5).snapMultiplier ∧
      (update (setSnapMultiplier (construct zeroState 3 true 7) (-2)) 10 5).snapMultiplier ≤ 1 :=
  ⟨Reachable.update _ _ _ (Reachable.setSnapMultiplier _ _ (Reachable.construct _ _ _ _)),
    C6_snapMultiplier_clamped.2.2 _
      (Reachable.update _ _ _ (Reachable.setSnapMultiplier _ _ (Reachable.construct _ _ _ _)))⟩

section Curve

variable {K : Type} [LinearOrderedField K]

/-! ## The claims on `snapCurve` -/

/-- Claim C7. For every `x ≥ 0` the value `snapCurve x` lies in `[0, 1]`. -/
theorem C7_snapCurve_mem_unit_interval (x : K) (hx : 0 ≤ x) :
    0 ≤ snapCurve x ∧ snapCurve x ≤ 1 :=
  ⟨snapCurve_nonneg hx, snapCurve_le_one hx⟩

/-- Witness of C7 at `x = 1 / 2`, where `snapCurve` is `2 / 3`. -/
theorem C7_snapCurve_mem_unit_interval_witness :
    (0 : ℚ) ≤ 1 / 2 ∧ (0 ≤ snapCurve (1 / 2 : ℚ) ∧ snapCurve (1 / 2 : ℚ) ≤ 1) :=
  ⟨by norm_num, C7_snapCurve_mem_unit_interval (1 / 2 : ℚ) (by norm_num)⟩

/-- Claim C8. The function `snapCurve` is non-decreasing on the non-negative numbers: for all
`0 ≤ x ≤ y`, `snapCurve x ≤ snapCurve y`. -/
theorem C8_snapCurve_nondecreasing (x y : K) (hx : 0 ≤ x) (hxy : x ≤ y) :
    snapCurve x ≤ snapCurve y :=
  snapCurve_mono hx hxy

/-- Witness of C8 at `x = 1 / 2` and `y = 3`. -/
theorem C8_snapCurve_nondecreasing_witness :
    (0 : ℚ) ≤ 1 / 2 ∧ (1 / 2 : ℚ) ≤ 3 ∧
      snapCurve (1 / 2 : ℚ) ≤ snapCurve (3 : ℚ) :=
  ⟨by norm_num, by norm_num,
    C8_snapCurve_nondecreasing (1 / 2 : ℚ) 3 (by norm_num) (by norm_num)⟩

/-- Claim C9. The function `snapCurve` saturates at `1`: `snapCurve x` tends to `1` as `x` tends
to infinity, `snapCurve x = 1` for every `x ≥ 1`, and `snapCurve x = 2 * x / (x + 1) < 1` for
every `0 ≤ x < 1`. -/
theorem C9_snapCurve_saturates [TopologicalSpace K] [OrderTopology K] :
    Filter.Tendsto (snapCurve : K → K) Filter.atTop (nhds 1) ∧
      (∀ x : K, 1 ≤ x → snapCurve x = 1) ∧
      (∀ x : K, 0 ≤ x → x < 1 → snapCurve x = 2 * x / (x + 1) ∧ snapCurve x < 1) := by
  refine ⟨?_, fun x h1 => snapCurve_of_one_le h1, fun x hx h1 =>
    ⟨snapCurve_of_lt_one hx h1, snapCurve_lt_one hx h1⟩⟩
  refine Filter.Tendsto.congr' ?_ tendsto_const_nhds
  filter_upwards [Filter.eventually_ge_atTop (1 : K)] with x h1
  exact (snapCurve_of_one_le h1).symm

/-- Witness of C9 over the real numbers: the limit, the value at `3` and the value at `1 / 2`. -/
theorem C9_snapCurve_saturates_witness :
    Filter.Tendsto (snapCurve : ℝ → ℝ) Filter.atTop (nhds 1) ∧ snapCurve (3 : ℝ) = 1 ∧
      (snapCurve (1 / 2 : ℝ) = 2 * (1 / 2) / (1 / 2 + 1) ∧ snapCurve (1 / 2 : ℝ) < 1) :=
  ⟨C9_snapCurve_saturates.1, C9_snapCurve_saturates.2.1 3 (by norm_num),
    C9_snapCurve_saturates.2.2 (1 / 2) (by norm_num) (by norm_num)⟩

/-- Claim C10. `snapCurve 0 = 0`: a zero deviation gives a zero snap factor. -/
theorem C10_snapCurve_zero : snapCurve (0 : K) = 0 := by
  rw [snapCurve_of_lt_one le_rfl zero_lt_one]
  simp

end Curve

end ResponsiveAnalogRead

namespace ResponsiveAnalogRead

section Loop

variable {K : Type} [LinearOrderedField K] [FloorRing K]

/-! ## More on the casts and on one call -/

/-- The cast `(int)x` is non-decreasing. -/
theorem toInt_mono {x y : K} (h : x ≤ y) : toInt x ≤ toInt y := by
  unfold toInt
  split_ifs with hx hy hy
  · exact Int.floor_mono h
  · exact absurd (hx.trans h) hy
  · have h1 : ⌈x⌉ ≤ 0 := Int.ceil_le.mpr (by simpa using (not_le.mp hx).le)
    exact h1.trans (Int.floor_nonneg.mpr hy)
  · exact Int.ceil_mono h

/-- With sleep disabled `getResponsiveValue` is the smoothing step alone. -/
theorem getResponsiveValue_of_sleep_disabled (s : ResponsiveAnalogRead K) (newValue : Int)
    (ms : Nat) (hen : s.sleepEnable = false) :
    getResponsiveValue s newValue ms =
      (toInt (s.smoothValue + ((newValue : K) - s.smoothValue) *
          snapCurve ((toUInt |(newValue : K) - s.smoothValue| : Nat) * s.snapMultiplier)),
        { s with
          smoothValue := s.smoothValue + ((newValue : K) - s.smoothValue) *
            snapCurve
              ((toUInt |(newValue : K) - s.smoothValue| : Nat) * s.snapMultiplier) }) := by
  unfold getResponsiveValue
  simp [hen]

/-- The fields that `update` takes over from `getResponsiveValue`. -/
theorem update_fields (s : ResponsiveAnalogRead K) (raw : Int) (ms : Nat) :
    (update s raw ms).smoothValue = (getResponsiveValue s raw ms).2.smoothValue ∧
      (update s raw ms).responsiveValue = (getResponsiveValue s raw ms).1 ∧
      (update s raw ms).sleeping = (getResponsiveValue s raw ms).2.sleeping ∧
      (update s raw ms).lastActivityMS = (getResponsiveValue s raw ms).2.lastActivityMS := by
  rw [update_eq_of_getResponsiveValue]
  exact ⟨rfl, rfl, rfl, rfl⟩

/-- The bookkeeping of `update`: the previous output and the change flag. -/
theorem update_changed (s : ResponsiveAnalogRead K) (raw : Int) (ms : Nat) :
    (update s raw ms).prevResponsiveValue = s.responsiveValue ∧
      (update s raw ms).responsiveValueHasChanged =
        decide ((update s raw ms).responsiveValue ≠ s.responsiveValue) := by
  rw [update_eq_of_getResponsiveValue]
  exact ⟨rfl, rfl⟩

/-- The configuration is not written by `update`. -/
theorem update_config (s : ResponsiveAnalogRead K) (raw : Int) (ms : Nat) :
    (update s raw ms).snapMultiplier = s.snapMultiplier ∧
      (update s raw ms).sleepEnable = s.sleepEnable := by
  rw [update_eq_of_getResponsiveValue]
  exact ⟨(getResponsiveValue_config s raw ms).1, (getResponsiveValue_config s raw ms).2.1⟩

/-- The output of `update` is the cast of the `smoothValue` it leaves. -/
theorem update_responsiveValue (s : ResponsiveAnalogRead K) (raw : Int) (ms : Nat) :
    (update s raw ms).responsiveValue = toInt (update s raw ms).smoothValue := by
  rw [(update_fields s raw ms).1, (update_fields s raw ms).2.1]
  exact getResponsiveValue_fst s raw ms

/-! ## The polling loop -/

/-- The configuration is the same all along the polling loop. -/
theorem run_config (s : ResponsiveAnalogRead K) (samples : Nat → Int) (clock : Nat → Nat)
    (n : Nat) :
    (run s samples clock n).snapMultiplier = s.snapMultiplier ∧
      (run s samples clock n).sleepEnable = s.sleepEnable := by
  induction n with
  | zero => exact ⟨rfl, rfl⟩
  | succ n ih =>
    have h := update_config (run s samples clock n) (samples n) (clock n)
    exact ⟨h.1.trans ih.1, h.2.trans ih.2⟩

/-- Claim C11. After `update` the field `prevResponsiveValue` holds the `responsiveValue` from
before the call, and `responsiveValueHasChanged` is true if and only if the new
`responsiveValue` differs from `prevResponsiveValue`. -/
theorem C11_changed_flag (s : ResponsiveAnalogRead K) (raw : Int) (ms : Nat) :
    (update s raw ms).prevResponsiveValue = s.responsiveValue ∧
      ((update s raw ms).responsiveValueHasChanged = true ↔
        (update s raw ms).responsiveValue ≠ (update s raw ms).prevResponsiveValue) := by
  obtain ⟨h1, h2⟩ := update_changed s raw ms
  refine ⟨h1, ?_⟩
  rw [h2, h1, decide_eq_true_iff]

end Loop

end ResponsiveAnalogRead

namespace ResponsiveAnalogRead

/-- A non-decreasing sequence of integers that is bounded above is constant from some index
on. -/
theorem eventually_const_of_monotone {f : Nat → Int} (hf : Monotone f) {B : Int}
    (hB : ∀ n, f n ≤ B) : ∃ N, ∀ n, N ≤ n → f n = f N := by
  obtain ⟨ub, ⟨N, hN⟩, hub⟩ := Int.exists_greatest_of_bdd (P := fun z => ∃ n, f n = z)
    ⟨B, fun z hz => by obtain ⟨n, hn⟩ := hz; rw [← hn]; exact hB n⟩ ⟨f 0, 0, rfl⟩
  refine ⟨N, fun n hn => le_antisymm ?_ (hf hn)⟩
  rw [hN]
  exact hub _ ⟨n, rfl⟩

/-- A non-increasing sequence of integers that is bounded below is constant from some index
on. -/
theorem eventually_const_of_antitone {f : Nat → Int} (hf : Antitone f) {B : Int}
    (hB : ∀ n, B ≤ f n) : ∃ N, ∀ n, N ≤ n → f n = f N := by
  obtain ⟨N, hN⟩ := eventually_const_of_monotone (f := fun n => - f n) (B := - B)
    (fun a b hab => neg_le_neg (hf hab)) (fun n => neg_le_neg (hB n))
  exact ⟨N, fun n hn => neg_injective (hN n hn)⟩

section Loop2

variable {K : Type} [LinearOrderedField K] [FloorRing K]

/-- One turn of the polling loop moves `smoothValue` toward the sample by a factor in
`[0, 1]`. -/
theorem run_succ_smoothValue (s : ResponsiveAnalogRead K) (samples : Nat → Int)
    (clock : Nat → Nat) (h0 : 0 ≤ s.snapMultiplier) (n : Nat) :
    ∃ t : K, 0 ≤ t ∧ t ≤ 1 ∧ (run s samples clock (n + 1)).smoothValue =
      (run s samples clock n).smoothValue +
        ((samples n : K) - (run s samples clock n).smoothValue) * t := by
  have hm : 0 ≤ (run s samples clock n).snapMultiplier := by
    rw [(run_config s samples clock n).1]
    exact h0
  obtain ⟨t, ht0, ht1, ht⟩ :=
    getResponsiveValue_smoothValue_convex (run s samples clock n) (samples n) (clock n) hm
  refine ⟨t, ht0, ht1, ?_⟩
  rw [← ht]
  exact (update_fields (run s samples clock n) (samples n) (clock n)).1

/-- After at least one call the output in the polling loop is the cast of `smoothValue`. -/
theorem run_succ_responsiveValue (s : ResponsiveAnalogRead K) (samples : Nat → Int)
    (clock : Nat → Nat) (n : Nat) :
    (run s samples clock (n + 1)).responsiveValue =
      toInt (run s samples clock (n + 1)).smoothValue :=
  update_responsiveValue (run s samples clock n) (samples n) (clock n)

/-- The change flag in the polling loop compares the outputs of two successive calls. -/
theorem run_succ_changed (s : ResponsiveAnalogRead K) (samples : Nat → Int)
    (clock : Nat → Nat) (n : Nat) :
    (run s samples clock (n + 1)).responsiveValueHasChanged =
      decide ((run s samples clock (n + 1)).responsiveValue ≠
        (run s samples clock n).responsiveValue) :=
  (update_changed (run s samples clock n) (samples n) (clock n)).2

/-- When the casts of the successive values of `smoothValue` are constant from the call `N`
on, the output is constant and unchanged after the call `N + 1`. -/
theorem run_stable_of_eventually_const (s : ResponsiveAnalogRead K) (samples : Nat → Int)
    (clock : Nat → Nat) (N : Nat)
    (hN : ∀ n, N ≤ n → toInt (run s samples clock n).smoothValue =
      toInt (run s samples clock N).smoothValue) :
    ∀ n, N + 1 < n →
      (run s samples clock n).responsiveValue = toInt (run s samples clock N).smoothValue ∧
      (run s samples clock n).responsiveValueHasChanged = false := by
  intro n hn
  obtain ⟨m, rfl⟩ : ∃ m, n = m + 1 := ⟨n - 1, by omega⟩
  obtain ⟨k, rfl⟩ : ∃ k, m = k + 1 := ⟨m - 1, by omega⟩
  have h1 : (run s samples clock (k + 1 + 1)).responsiveValue =
      toInt (run s samples clock N).smoothValue := by
    rw [run_succ_responsiveValue]
    exact hN _ (by omega)
  have h2 : (run s samples clock (k + 1)).responsiveValue =
      toInt (run s samples clock N).smoothValue := by
    rw [run_succ_responsiveValue]
    exact hN _ (by omega)
  refine ⟨h1, ?_⟩
  rw [run_succ_changed, h1, h2]
  simp

/-- Claim C12. Stabilisation under a constant input stream: when `snapMultiplier` is in
`[0, 1]` and `update` is called again and again with the same sample, at any clock values,
there is an `N` such that after every call later than the `N`-th the `responsiveValue` is the
same and `responsiveValueHasChanged` is false. -/
theorem C12_stabilisation (s : ResponsiveAnalogRead K) (newValue : Int) (clock : Nat → Nat)
    (h0 : 0 ≤ s.snapMultiplier) (_h1 : s.snapMultiplier ≤ 1) :
    ∃ (N : Nat) (r : Int), ∀ n, N < n →
      (run s (fun _ => newValue) clock n).responsiveValue = r ∧
      (run s (fun _ => newValue) clock n).responsiveValueHasChanged = false := by
  have step := run_succ_smoothValue s (fun _ => newValue) clock h0
  rcases le_total s.smoothValue (newValue : K) with hle | hle
  · have hbd : ∀ n, (run s (fun _ => newValue) clock n).smoothValue ≤ (newValue : K) := by
      intro n
      induction n with
      | zero => exact hle
      | succ n ih =>
        obtain ⟨t, ht0, ht1, ht⟩ := step n
        rw [ht]
        nlinarith
    have hmono : Monotone fun n => toInt (run s (fun _ => newValue) clock n).smoothValue := by
      refine monotone_nat_of_le_succ fun n => toInt_mono ?_
      obtain ⟨t, ht0, ht1, ht⟩ := step n
      rw [ht]
      nlinarith [hbd n]
    obtain ⟨N, hN⟩ := eventually_const_of_monotone hmono (B := newValue) fun n => by
      have h := toInt_mono (hbd n)
      rwa [toInt_intCast] at h
    exact ⟨N + 1, _, run_stable_of_eventually_const s _ clock N hN⟩
  · have hbd : ∀ n, (newValue : K) ≤ (run s (fun _ => newValue) clock n).smoothValue := by
      intro n
      induction n with
      | zero => exact hle
      | succ n ih =>
        obtain ⟨t, ht0, ht1, ht⟩ := step n
        rw [ht]
        nlinarith
    have hanti : Antitone fun n => toInt (run s (fun _ => newValue) clock n).smoothValue := by
      refine antitone_nat_of_succ_le fun n => toInt_mono ?_
      obtain ⟨t, ht0, ht1, ht⟩ := step n
      rw [ht]
      nlinarith [hbd n]
    obtain ⟨N, hN⟩ := eventually_const_of_antitone hanti (B := newValue) fun n => by
      have h := toInt_mono (hbd n)
      rwa [toInt_intCast] at h
    exact ⟨N + 1, _, run_stable_of_eventually_const s _ clock N hN⟩

end Loop2

end ResponsiveAnalogRead

namespace ResponsiveAnalogRead

/-- Witness of C12: the constant sample `10` fed to `slowState`, the clock counting the calls. -/
theorem C12_stabilisation_witness :
    (0 : ℚ) ≤ slowState.snapMultiplier ∧ slowState.snapMultiplier ≤ 1 ∧
      ∃ (N : Nat) (r : Int), ∀ n, N < n →
        (run slowState (fun _ => 10) (fun i => i) n).responsiveValue = r ∧
        (run slowState (fun _ => 10) (fun i => i) n).responsiveValueHasChanged = false :=
  ⟨by norm_num [slowState, zeroState], by norm_num [slowState, zeroState],
    C12_stabilisation slowState 10 (fun i => i) (by norm_num [slowState, zeroState])
      (by norm_num [slowState, zeroState])⟩

section DeadBand

variable {K : Type} [LinearOrderedField K] [FloorRing K]

/-! ## The dead band -/

/-- A deviation below `1` is converted to `diff = 0`. -/
theorem toUInt_abs_eq_zero {x : K} (h : |x| < 1) : toUInt |x| = 0 :=
  toUInt_eq (by simp) (by simpa using h)

/-- A call with a deviation below `1` leaves `smoothValue` as it was. -/
theorem getResponsiveValue_smoothValue_of_dead_band (s : ResponsiveAnalogRead K)
    (newValue : Int) (ms : Nat) (h : |(newValue : K) - s.smoothValue| < 1) :
    (getResponsiveValue s newValue ms).2.smoothValue = s.smoothValue := by
  have h0 : snapCurve (0 : K) = 0 := by
    rw [snapCurve_of_lt_one le_rfl zero_lt_one]
    simp
  rw [getResponsiveValue_smoothValue, toUInt_abs_eq_zero h]
  split_ifs
  · rfl
  · simp [h0]

/-- In the polling loop with a constant sample, a `smoothValue` less than `1` away from the
sample stays where it is. -/
theorem run_smoothValue_of_dead_band (s : ResponsiveAnalogRead K) (newValue : Int)
    (clock : Nat → Nat) (h : |(newValue : K) - s.smoothValue| < 1) (n : Nat) :
    (run s (fun _ => newValue) clock n).smoothValue = s.smoothValue := by
  induction n with
  | zero => rfl
  | succ n ih =>
    have h' : |(newValue : K) - (run s (fun _ => newValue) clock n).smoothValue| < 1 := by
      rw [ih]
      exact h
    have e := (update_fields (run s (fun _ => newValue) clock n) newValue (clock n)).1
    rw [getResponsiveValue_smoothValue_of_dead_band _ _ _ h', ih] at e
    exact e

/-- Claim C18. Dead band from the integer cast of `diff`: when `|newValue - smoothValue| < 1`,
`diff` is `0`, the snap factor is `snapCurve 0 = 0`, and `getResponsiveValue` leaves
`smoothValue` unchanged and returns its truncation, whatever `snapMultiplier` is; so under a
constant input the estimate stays where it is, away from the input, after any number of
calls of `update`. -/
theorem C18_dead_band (s : ResponsiveAnalogRead K) (newValue : Int) (ms : Nat)
    (clock : Nat → Nat) (h : |(newValue : K) - s.smoothValue| < 1) :
    toUInt |(newValue : K) - s.smoothValue| = 0 ∧
      snapCurve (((toUInt |(newValue : K) - s.smoothValue| : Nat) : K) * s.snapMultiplier) = 0 ∧
      (getResponsiveValue s newValue ms).2.smoothValue = s.smoothValue ∧
      (getResponsiveValue s newValue ms).1 = toInt s.smoothValue ∧
      ∀ n, (run s (fun _ => newValue) clock n).smoothValue = s.smoothValue := by
  have hd := toUInt_abs_eq_zero h
  have hsv := getResponsiveValue_smoothValue_of_dead_band s newValue ms h
  refine ⟨hd, ?_, hsv, ?_, run_smoothValue_of_dead_band s newValue clock h⟩
  · rw [hd, Nat.cast_zero, zero_mul, snapCurve_of_lt_one le_rfl zero_lt_one]
    simp
  · rw [getResponsiveValue_fst, hsv]

end DeadBand

/-- Witness of C18: `halfState` has `smoothValue = 1 / 2` and receives the sample `1`. -/
theorem C18_dead_band_witness :
    |((1 : Int) : ℚ) - halfState.smoothValue| < 1 ∧
      (toUInt |((1 : Int) : ℚ) - halfState.smoothValue| = 0 ∧
        snapCurve (((toUInt |((1 : Int) : ℚ) - halfState.smoothValue| : Nat) : ℚ) *
          halfState.snapMultiplier) = 0 ∧
        (getResponsiveValue halfState 1 7).2.smoothValue = halfState.smoothValue ∧
        (getResponsiveValue halfState 1 7).1 = toInt halfState.smoothValue ∧
        ∀ n, (run halfState (fun _ => 1) (fun i => i) n).smoothValue =
          halfState.smoothValue) :=
  ⟨by norm_num [halfState, zeroState, abs_lt],
    C18_dead_band halfState 1 7 (fun i => i) (by norm_num [halfState, zeroState, abs_lt])⟩

end ResponsiveAnalogRead

namespace ResponsiveAnalogRead

section Converge

variable {K : Type} [LinearOrderedField K] [FloorRing K]

/-! ## Approach to a constant sample with sleep disabled -/

/-- With sleep disabled `update` performs the smoothing step. -/
theorem update_smoothValue_of_sleep_disabled (s : ResponsiveAnalogRead K) (raw : Int)
    (ms : Nat) (hen : s.sleepEnable = false) :
    (update s raw ms).smoothValue = s.smoothValue + ((raw : K) - s.smoothValue) *
      snapCurve ((toUInt |(raw : K) - s.smoothValue| : Nat) * s.snapMultiplier) := by
  rw [(update_fields s raw ms).1, getResponsiveValue_of_sleep_disabled s raw ms hen]

end Converge

end ResponsiveAnalogRead

namespace ResponsiveAnalogRead

section Noise

variable {K : Type} [LinearOrderedField K] [FloorRing K]

/-! ## Alternating samples around `500` with `snapMultiplier = 0.01` -/

omit [FloorRing K] in
/-- The snap factor for `diff = 2` and `snapMultiplier = 0.01`. -/
theorem snapCurve_noise : snapCurve (((2 : Nat) : K) * 0.01) = 2 / 51 := by
  rw [snapCurve_of_lt_one (by norm_num) (by norm_num)]
  norm_num

/-- The sample `502` at an estimate in `[500 - 1 / 25, 500]`: `diff` is `2`, the estimate
moves up into `[500 + 1 / 25, 500 + 4 / 51]` and the output is `500`. -/
theorem update_noise_high (s : ResponsiveAnalogRead K) (ms : Nat)
    (hen : s.sleepEnable = false) (hm : s.snapMultiplier = 0.01)
    (hlo : 500 - 1 / 25 ≤ s.smoothValue) (hhi : s.smoothValue ≤ 500) :
    (update s 502 ms).smoothValue = s.smoothValue + (502 - s.smoothValue) * (2 / 51) ∧
      500 + 1 / 25 ≤ (update s 502 ms).smoothValue ∧
      (update s 502 ms).smoothValue ≤ 500 + 4 / 51 ∧
      (update s 502 ms).responsiveValue = 500 := by
  have habs : |((502 : Int) : K) - s.smoothValue| = 502 - s.smoothValue := by
    rw [abs_of_nonneg (by push_cast; linarith)]
    push_cast
    ring
  have hd : toUInt |((502 : Int) : K) - s.smoothValue| = 2 := by
    rw [habs]
    exact toUInt_eq (by push_cast; linarith) (by push_cast; linarith)
  have hsv : (update s 502 ms).smoothValue =
      s.smoothValue + (502 - s.smoothValue) * (2 / 51) := by
    rw [update_smoothValue_of_sleep_disabled s 502 ms hen, hd, hm, snapCurve_noise]
    push_cast
    ring
  have h1 : 500 + 1 / 25 ≤ (update s 502 ms).smoothValue := by
    rw [hsv]
    linarith
  have h2 : (update s 502 ms).smoothValue ≤ 500 + 4 / 51 := by
    rw [hsv]
    linarith
  refine ⟨hsv, h1, h2, ?_⟩
  rw [update_responsiveValue]
  exact toInt_eq_of_nonneg (by norm_num) (by push_cast; linarith) (by push_cast; linarith)

/-- The sample `498` at an estimate in `[500 + 1 / 25, 500 + 4 / 51]`: `diff` is `2`, the
estimate moves down into `[500 - 1 / 25, 500 - 8 / 2601]` and the output is `499`. -/
theorem update_noise_low (s : ResponsiveAnalogRead K) (ms : Nat)
    (hen : s.sleepEnable = false) (hm : s.snapMultiplier = 0.01)
    (hlo : 500 + 1 / 25 ≤ s.smoothValue) (hhi : s.smoothValue ≤ 500 + 4 / 51) :
    (update s 498 ms).smoothValue = s.smoothValue + (498 - s.smoothValue) * (2 / 51) ∧
      500 - 1 / 25 ≤ (update s 498 ms).smoothValue ∧
      (update s 498 ms).smoothValue ≤ 500 - 8 / 2601 ∧
      (update s 498 ms).responsiveValue = 499 := by
  have habs : |((498 : Int) : K) - s.smoothValue| = s.smoothValue - 498 := by
    rw [abs_of_nonpos (by push_cast; linarith)]
    push_cast
    ring
  have hd : toUInt |((498 : Int) : K) - s.smoothValue| = 2 := by
    rw [habs]
    exact toUInt_eq (by push_cast; linarith) (by push_cast; linarith)
  have hsv : (update s 498 ms).smoothValue =
      s.smoothValue + (498 - s.smoothValue) * (2 / 51) := by
    rw [update_smoothValue_of_sleep_disabled s 498 ms hen, hd, hm, snapCurve_noise]
    push_cast
    ring
  have h1 : 500 - 1 / 25 ≤ (update s 498 ms).smoothValue := by
    rw [hsv]
    linarith
  have h2 : (update s 498 ms).smoothValue ≤ 500 - 8 / 2601 := by
    rw [hsv]
    linarith
  refine ⟨hsv, h1, h2, ?_⟩
  rw [update_responsiveValue]
  exact toInt_eq_of_nonneg (by norm_num) (by push_cast; linarith) (by push_cast; linarith)

/-- The estimate under the alternating samples: in `[500 - 1 / 25, 500]` before each sample
`502` and in `[500 + 1 / 25, 500 + 4 / 51]` before each sample `498`. -/
theorem run_noise_smoothValue (s : ResponsiveAnalogRead K) (clock : Nat → Nat)
    (hen : s.sleepEnable = false) (hm : s.snapMultiplier = 0.01)
    (hsv : s.smoothValue = 500) (k : Nat) :
    (500 - 1 / 25 ≤ (run s noiseSamples clock (2 * k)).smoothValue ∧
        (run s noiseSamples clock (2 * k)).smoothValue ≤ 500) ∧
      (500 + 1 / 25 ≤ (run s noiseSamples clock (2 * k + 1)).smoothValue ∧
        (run s noiseSamples clock (2 * k + 1)).smoothValue ≤ 500 + 4 / 51) := by
  have hodd : ∀ k, (500 - 1 / 25 ≤ (run s noiseSamples clock (2 * k)).smoothValue ∧
      (run s noiseSamples clock (2 * k)).smoothValue ≤ 500) →
      (500 + 1 / 25 ≤ (run s noiseSamples clock (2 * k + 1)).smoothValue ∧
        (run s noiseSamples clock (2 * k + 1)).smoothValue ≤ 500 + 4 / 51) := by
    intro k h
    have hcfg := run_config s noiseSamples clock (2 * k)
    have hs : noiseSamples (2 * k) = 502 := by simp [noiseSamples]
    have := update_noise_high (run s noiseSamples clock (2 * k)) (clock (2 * k))
      (hcfg.2.trans hen) (hcfg.1.trans hm) h.1 h.2
    rw [← hs] at this
    exact ⟨this.2.1, this.2.2.1⟩
  induction k with
  | zero =>
    have h0 : 500 - 1 / 25 ≤ (run s noiseSamples clock (2 * 0)).smoothValue ∧
        (run s noiseSamples clock (2 * 0)).smoothValue ≤ 500 := by
      simp only [Nat.mul_zero, run, hsv]
      constructor <;> norm_num
    exact ⟨h0, hodd 0 h0⟩
  | succ k ih =>
    have hcfg := run_config s noiseSamples clock (2 * k + 1)
    have hs : noiseSamples (2 * k + 1) = 498 := by simp [noiseSamples, Nat.add_mod]
    have := update_noise_low (run s noiseSamples clock (2 * k + 1)) (clock (2 * k + 1))
      (hcfg.2.trans hen) (hcfg.1.trans hm) ih.2.1 ih.2.2
    rw [← hs] at this
    have he : 500 - 1 / 25 ≤ (run s noiseSamples clock (2 * (k + 1))).smoothValue ∧
        (run s noiseSamples clock (2 * (k + 1))).smoothValue ≤ 500 :=
      ⟨this.2.1, this.2.2.1.trans (by norm_num)⟩
    exact ⟨he, hodd (k + 1) he⟩

/-- The output under the alternating samples: `500` after each sample `502` and `499` after
each sample `498`. -/
theorem run_noise_responsiveValue (s : ResponsiveAnalogRead K) (clock : Nat → Nat)
    (hen : s.sleepEnable = false) (hm : s.snapMultiplier = 0.01)
    (hsv : s.smoothValue = 500) (k : Nat) :
    (run s noiseSamples clock (2 * k + 1)).responsiveValue = 500 ∧
      (run s noiseSamples clock (2 * k + 2)).responsiveValue = 499 := by
  obtain ⟨he, ho⟩ := run_noise_smoothValue s clock hen hm hsv k
  constructor
  · have hcfg := run_config s noiseSamples clock (2 * k)
    have hs : noiseSamples (2 * k) = 502 := by simp [noiseSamples]
    have := update_noise_high (run s noiseSamples clock (2 * k)) (clock (2 * k))
      (hcfg.2.trans hen) (hcfg.1.trans hm) he.1 he.2
    rw [← hs] at this
    exact this.2.2.2
  · have hcfg := run_config s noiseSamples clock (2 * k + 1)
    have hs : noiseSamples (2 * k + 1) = 498 := by simp [noiseSamples, Nat.add_mod]
    have := update_noise_low (run s noiseSamples clock (2 * k + 1)) (clock (2 * k + 1))
      (hcfg.2.trans hen) (hcfg.1.trans hm) ho.1 ho.2
    rw [← hs] at this
    exact this.2.2.2

/-- The change flag under the alternating samples: false on the first call, true on every
later call. -/
theorem run_noise_changed (s : ResponsiveAnalogRead K) (clock : Nat → Nat)
    (hen : s.sleepEnable = false) (hm : s.snapMultiplier = 0.01)
    (hsv : s.smoothValue = 500) (hrv : s.responsiveValue = 500) :
    (run s noiseSamples clock 1).responsiveValueHasChanged = false ∧
      ∀ n, 2 ≤ n → (run s noiseSamples clock n).responsiveValueHasChanged = true := by
  constructor
  · have h1 := (run_noise_responsiveValue s clock hen hm hsv 0).1
    rw [run_succ_changed, h1]
    simp [run, hrv]
  · intro n hn
    rcases Nat.even_or_odd' n with ⟨k, rfl | rfl⟩
    · obtain ⟨j, rfl⟩ : ∃ j, k = j + 1 := ⟨k - 1, by omega⟩
      have h1 := (run_noise_responsiveValue s clock hen hm hsv j).1
      have h2 := (run_noise_responsiveValue s clock hen hm hsv j).2
      have e : 2 * (j + 1) = 2 * j + 1 + 1 := by ring
      rw [e, run_succ_changed, h1]
      rw [show 2 * j + 1 + 1 = 2 * j + 2 from rfl, h2]
      rfl
    · obtain ⟨j, rfl⟩ : ∃ j, k = j + 1 := ⟨k - 1, by omega⟩
      have h1 := (run_noise_responsiveValue s clock hen hm hsv (j + 1)).1
      have h2 := (run_noise_responsiveValue s clock hen hm hsv j).2
      rw [run_succ_changed, h1]
      rw [show 2 * (j + 1) = 2 * j + 2 from rfl, h2]
      rfl

end Noise

end ResponsiveAnalogRead

namespace ResponsiveAnalogRead

section NoiseClaim

variable {K : Type} [LinearOrderedField K] [FloorRing K]

/-- Claim C14, amended. Noise containment: for a filter with sleep disabled,
`snapMultiplier = 0.01`, `smoothValue = 500` and `responsiveValue = 500`, the alternating
samples `502, 498, 502, 498, ...` keep `smoothValue` between `500 - 1 / 25` and `500 + 4 / 51`
and keep `responsiveValue` at `499` or `500`: it is `500` after every sample `502` and `499`
after every sample `498`, so `responsiveValueHasChanged` is false on the first call and true
on every later call. -/
theorem C14_noise_containment (s : ResponsiveAnalogRead K) (clock : Nat → Nat)
    (hen : s.sleepEnable = false) (hm : s.snapMultiplier = 0.01)
    (hsv : s.smoothValue = 500) (hrv : s.responsiveValue = 500) :
    (∀ n, 500 - 1 / 25 ≤ (run s noiseSamples clock n).smoothValue ∧
        (run s noiseSamples clock n).smoothValue ≤ 500 + 4 / 51) ∧
      (∀ k, (run s noiseSamples clock (2 * k + 1)).responsiveValue = 500 ∧
        (run s noiseSamples clock (2 * k + 2)).responsiveValue = 499) ∧
      (run s noiseSamples clock 1).responsiveValueHasChanged = false ∧
      ∀ n, 2 ≤ n → (run s noiseSamples clock n).responsiveValueHasChanged = true := by
  refine ⟨fun n => ?_, run_noise_responsiveValue s clock hen hm hsv,
    run_noise_changed s clock hen hm hsv hrv⟩
  rcases Nat.even_or_odd' n with ⟨k, rfl | rfl⟩
  · obtain ⟨h, -⟩ := run_noise_smoothValue s clock hen hm hsv k
    exact ⟨h.1, h.2.trans (by norm_num)⟩
  · obtain ⟨-, h⟩ := run_noise_smoothValue s clock hen hm hsv k
    exact ⟨le_trans (by norm_num) h.1, h.2⟩

end NoiseClaim

/-- Counterexample to C14: from `noiseState` (sleep disabled, `snapMultiplier = 0.01`,
`smoothValue = 500`, `responsiveValue = 500`) the sample `502` gives
`smoothValue = 500 + 4 / 51`, then the sample `498` gives `smoothValue = 500 - 8 / 2601`, which
is cast to `499`: after the second `update` the output is not `500` and the change flag is
set. -/
theorem C14_noise_counterexample :
    noiseState.sleepEnable = false ∧ noiseState.snapMultiplier = 0.01 ∧
      noiseState.smoothValue = 500 ∧ noiseState.responsiveValue = 500 ∧
      noiseSamples 0 = 502 ∧ noiseSamples 1 = 498 ∧
      (run noiseState noiseSamples (fun i => i) 1).smoothValue = 500 + 4 / 51 ∧
      (run noiseState noiseSamples (fun i => i) 2).smoothValue = 500 - 8 / 2601 ∧
      (run noiseState noiseSamples (fun i => i) 2).responsiveValue = 499 ∧
      (run noiseState noiseSamples (fun i => i) 2).responsiveValue ≠ 500 ∧
      (run noiseState noiseSamples (fun i => i) 2).responsiveValueHasChanged = true := by
  have hsv : noiseState.smoothValue = 500 := rfl
  have hm : noiseState.snapMultiplier = 0.01 := rfl
  have h1 := update_noise_high noiseState 0 rfl hm (by rw [hsv]; norm_num) (by rw [hsv])
  have e1 : (run noiseState noiseSamples (fun i => i) 1).smoothValue = 500 + 4 / 51 := by
    have : (run noiseState noiseSamples (fun i => i) 1) = update noiseState 502 0 := rfl
    rw [this, h1.1, hsv]
    norm_num
  have hcfg := run_config noiseState noiseSamples (fun i => i) 1
  have h2 := update_noise_low (run noiseState noiseSamples (fun i => i) 1) 1
    hcfg.2 (hcfg.1.trans hm) (by rw [e1]; norm_num) (by rw [e1])
  have e2 : (run noiseState noiseSamples (fun i => i) 2).smoothValue = 500 - 8 / 2601 := by
    have : (run noiseState noiseSamples (fun i => i) 2) =
        update (run noiseState noiseSamples (fun i => i) 1) 498 1 := rfl
    rw [this, h2.1, e1]
    norm_num
  have r2 := (run_noise_responsiveValue noiseState (fun i => i) rfl hm hsv 0).2
  refine ⟨rfl, rfl, rfl, rfl, rfl, rfl, e1, e2, r2, ?_, ?_⟩
  · rw [r2]
    norm_num
  · exact (run_noise_changed noiseState (fun i => i) rfl hm hsv rfl).2 2 le_rfl

/-- Witness of C14, amended: `noiseState` with the clock counting the calls. -/
theorem C14_noise_containment_witness :
    noiseState.sleepEnable = false ∧ noiseState.snapMultiplier = 0.01 ∧
      noiseState.smoothValue = 500 ∧ noiseState.responsiveValue = 500 ∧
      ((∀ n, 500 - 1 / 25 ≤ (run noiseState noiseSamples (fun i => i) n).smoothValue ∧
          (run noiseState noiseSamples (fun i => i) n).smoothValue ≤ 500 + 4 / 51) ∧
        (∀ k, (run noiseState noiseSamples (fun i => i) (2 * k + 1)).responsiveValue = 500 ∧
          (run noiseState noiseSamples (fun i => i) (2 * k + 2)).responsiveValue = 499) ∧
        (run noiseState noiseSamples (fun i => i) 1).responsiveValueHasChanged = false ∧
        ∀ n, 2 ≤ n →
          (run noiseState noiseSamples (fun i => i) n).responsiveValueHasChanged = true) :=
  ⟨rfl, rfl, rfl, rfl, C14_noise_containment noiseState (fun i => i) rfl rfl rfl rfl⟩

end ResponsiveAnalogRead

namespace ResponsiveAnalogRead

section Frame

variable {K : Type} [LinearOrderedField K] [FloorRing K]

/-! ## Sleep disabled, the boost factor and the range of the output -/

/-- With sleep disabled `update` leaves `sleeping` and `lastActivityMS` as they were. -/
theorem update_sleeping_of_sleep_disabled (s : ResponsiveAnalogRead K) (raw : Int) (ms : Nat)
    (hen : s.sleepEnable = false) :
    (update s raw ms).sleeping = s.sleeping ∧
      (update s raw ms).lastActivityMS = s.lastActivityMS := by
  rw [(update_fields s raw ms).2.2.1, (update_fields s raw ms).2.2.2,
    getResponsiveValue_of_sleep_disabled s raw ms hen]
  exact ⟨rfl, rfl⟩

/-- With sleep disabled the polling loop leaves `sleeping` as it was. -/
theorem run_sleeping_of_sleep_disabled (s : ResponsiveAnalogRead K) (samples : Nat → Int)
    (clock : Nat → Nat) (hen : s.sleepEnable = false) (n : Nat) :
    (run s samples clock n).sleeping = s.sleeping := by
  induction n with
  | zero => rfl
  | succ n ih =>
    have hcfg := run_config s samples clock n
    exact (update_sleeping_of_sleep_disabled (run s samples clock n) (samples n) (clock n)
      (hcfg.2.trans hen)).1.trans ih

/-- Claim C15. Sleep disabled has no effect: with `sleepEnable = false`, `getResponsiveValue`
leaves `sleeping` and `lastActivityMS` unchanged, and the value it returns and the
`smoothValue` it leaves are the same for any other values of `sleeping` and `lastActivityMS`
in the state and any other clock value; so a filter constructed with sleep disabled and
`sleeping = false` has `sleeping = false` after every sequence of calls of `update`. -/
theorem C15_sleep_disabled_no_effect (s : ResponsiveAnalogRead K) (newValue : Int)
    (ms ms' : Nat) (sl : Bool) (la : Nat) (hen : s.sleepEnable = false) :
    (getResponsiveValue s newValue ms).2.sleeping = s.sleeping ∧
      (getResponsiveValue s newValue ms).2.lastActivityMS = s.lastActivityMS ∧
      (getResponsiveValue { s with sleeping := sl, lastActivityMS := la } newValue ms').1 =
        (getResponsiveValue s newValue ms).1 ∧
      (getResponsiveValue { s with sleeping := sl, lastActivityMS := la }
          newValue ms').2.smoothValue =
        (getResponsiveValue s newValue ms).2.smoothValue ∧
      (∀ (samples : Nat → Int) (clock : Nat → Nat) (n : Nat),
        (run s samples clock n).sleeping = s.sleeping) ∧
      ∀ (init : ResponsiveAnalogRead K) (pin : Int) (m : K) (samples : Nat → Int)
        (clock : Nat → Nat) (n : Nat), init.sleeping = false →
        (run (construct init pin false m) samples clock n).sleeping = false := by
  have h1 := getResponsiveValue_of_sleep_disabled s newValue ms hen
  have h2 := getResponsiveValue_of_sleep_disabled
    { s with sleeping := sl, lastActivityMS := la } newValue ms' hen
  refine ⟨?_, ?_, ?_, ?_, fun samples clock n =>
    run_sleeping_of_sleep_disabled s samples clock hen n, ?_⟩
  · rw [h1]
  · rw [h1]
  · rw [h1, h2]
  · rw [h1, h2]
  · intro init pin m samples clock n hinit
    rw [run_sleeping_of_sleep_disabled _ samples clock rfl n]
    exact hinit

/-- Claim C16. The sleep-mode boost is a no-op: when a sleep-enabled filter is awake after
the sleep/wake update, the `smoothValue` it leaves and the value it returns are those of the
filter with `sleepEnable = false` on the same `smoothValue`, `snapMultiplier` and sample; the
factor `0.8 + 0.2` is `1`. -/
theorem C16_boost_is_no_op (s : ResponsiveAnalogRead K) (newValue : Int) (ms ms' : Nat)
    (hen : s.sleepEnable = true)
    (hawake : (getResponsiveValue s newValue ms).2.sleeping = false) :
    (getResponsiveValue s newValue ms).2.smoothValue =
        (getResponsiveValue { s with sleepEnable := false } newValue ms').2.smoothValue ∧
      (getResponsiveValue s newValue ms).1 =
        (getResponsiveValue { s with sleepEnable := false } newValue ms').1 ∧
      (0.8 + 0.2 : K) = 1 := by
  have hsv : (getResponsiveValue s newValue ms).2.smoothValue =
      (getResponsiveValue { s with sleepEnable := false } newValue ms').2.smoothValue := by
    rw [getResponsiveValue_smoothValue s, hen, hawake,
      getResponsiveValue_of_sleep_disabled { s with sleepEnable := false } newValue ms' rfl]
    simp
  refine ⟨hsv, ?_, boost_eq_one⟩
  rw [getResponsiveValue_fst s, hsv, getResponsiveValue_fst]

/-- The multiplier of a reachable state is in `[0, 1]`. -/
theorem reachable_snapMultiplier (s : ResponsiveAnalogRead K) (hs : Reachable s) :
    0 ≤ s.snapMultiplier ∧ s.snapMultiplier ≤ 1 := by
  have hset : ∀ (t : ResponsiveAnalogRead K) (m : K),
      0 ≤ (setSnapMultiplier t m).snapMultiplier ∧
        (setSnapMultiplier t m).snapMultiplier ≤ 1 := by
    intro t m
    unfold setSnapMultiplier
    simp only []
    split_ifs with h1 h2 h3 <;> constructor <;> linarith
  induction hs with
  | construct init pin en m => exact hset _ m
  | setSnapMultiplier t m _ _ => exact hset t m
  | update t raw ms _ ih =>
    rw [(update_config t raw ms).1]
    exact ih

/-- Claim C20. No division by zero in the snap curve: in every state reachable from
construction by calls of `setSnapMultiplier` and `update`, the argument
`diff * snapMultiplier` passed to `snapCurve` is non-negative, so the denominator `x + 1` is at
least `1`, is not zero, and the argument is not `-1`. -/
theorem C20_no_division_by_zero (s : ResponsiveAnalogRead K) (newValue : Int)
    (hs : Reachable s) :
    0 ≤ ((toUInt |(newValue : K) - s.smoothValue| : Nat) : K) * s.snapMultiplier ∧
      1 ≤ ((toUInt |(newValue : K) - s.smoothValue| : Nat) : K) * s.snapMultiplier + 1 ∧
      ((toUInt |(newValue : K) - s.smoothValue| : Nat) : K) * s.snapMultiplier + 1 ≠ 0 ∧
      ((toUInt |(newValue : K) - s.smoothValue| : Nat) : K) * s.snapMultiplier ≠ -1 := by
  have h0 : 0 ≤ ((toUInt |(newValue : K) - s.smoothValue| : Nat) : K) * s.snapMultiplier :=
    mul_nonneg (Nat.cast_nonneg _) (reachable_snapMultiplier s hs).1
  refine ⟨h0, by linarith, ?_, ?_⟩
  · intro h
    linarith
  · intro h
    linarith

end Frame

end ResponsiveAnalogRead

namespace ResponsiveAnalogRead

/-- Witness of C15: `snapState` has sleep disabled. -/
theorem C15_sleep_disabled_no_effect_witness :
    snapState.sleepEnable = false ∧
      ((getResponsiveValue snapState 1000 7).2.sleeping = snapState.sleeping ∧
        (getResponsiveValue snapState 1000 7).2.lastActivityMS = snapState.lastActivityMS ∧
        (getResponsiveValue { snapState with sleeping := true, lastActivityMS := 3 }
            1000 9).1 =
          (getResponsiveValue snapState 1000 7).1 ∧
        (getResponsiveValue { snapState with sleeping := true, lastActivityMS := 3 }
            1000 9).2.smoothValue =
          (getResponsiveValue snapState 1000 7).2.smoothValue ∧
        (∀ (samples : Nat → Int) (clock : Nat → Nat) (n : Nat),
          (run snapState samples clock n).sleeping = snapState.sleeping) ∧
        ∀ (init : ResponsiveAnalogRead ℚ) (pin : Int) (m : ℚ) (samples : Nat → Int)
          (clock : Nat → Nat) (n : Nat), init.sleeping = false →
          (run (construct init pin false m) samples clock n).sleeping = false) :=
  ⟨rfl, C15_sleep_disabled_no_effect snapState 1000 7 9 true 3 rfl⟩

/-- The state `idleState` stays awake on the sample `502` at the time `100`. -/
theorem idleState_awake : (getResponsiveValue idleState 502 100).2.sleeping = false := by
  unfold getResponsiveValue
  rw [idleState_diff]
  simp [idleState, zeroState, ULONG_MOD]

/-- Witness of C16: `idleState` has sleep enabled and is awake after the sample `502` at the
time `100`. -/
theorem C16_boost_is_no_op_witness :
    idleState.sleepEnable = true ∧ (getResponsiveValue idleState 502 100).2.sleeping = false ∧
      ((getResponsiveValue idleState 502 100).2.smoothValue =
          (getResponsiveValue { idleState with sleepEnable := false } 502 100).2.smoothValue ∧
        (getResponsiveValue idleState 502 100).1 =
          (getResponsiveValue { idleState with sleepEnable := false } 502 100).1 ∧
        (0.8 + 0.2 : ℚ) = 1) :=
  ⟨rfl, idleState_awake, C16_boost_is_no_op idleState 502 100 100 rfl idleState_awake⟩

/-- Evaluation for C17 at a clock value close to the wrap-around of `unsigned long`: the awake
state `wrapState` (sleep enabled, delay `200`, threshold `5`, `smoothValue = 0`) receives the
sample `1000` at the time `4294967246 = 2 ^ 32 - 50`. The deviation `1000` is recorded as
activity at that time, the sum `4294967246 + 200` wraps to `150`, which is less than the time,
so the filter is put to sleep and returns `0` without smoothing, although
`lastActivityMS + sleepDelayMS` is not less than the time. -/
theorem C17_overflow_failing_input :
    wrapState.sleepEnable = true ∧ wrapState.sleeping = false ∧
      4294967246 < ULONG_MOD ∧
      (getResponsiveValue wrapState 1000 4294967246).2.lastActivityMS = 4294967246 ∧
      ((getResponsiveValue wrapState 1000 4294967246).2.lastActivityMS +
          (getResponsiveValue wrapState 1000 4294967246).2.sleepDelayMS) % ULONG_MOD = 150 ∧
      (getResponsiveValue wrapState 1000 4294967246).2.sleeping = true ∧
      ¬ ((getResponsiveValue wrapState 1000 4294967246).2.lastActivityMS +
          (getResponsiveValue wrapState 1000 4294967246).2.sleepDelayMS < 4294967246) ∧
      (getResponsiveValue wrapState 1000 4294967246).2.smoothValue = 0 ∧
      (getResponsiveValue wrapState 1000 4294967246).1 = 0 := by
  have hd : toUInt |((1000 : Int) : ℚ) - wrapState.smoothValue| = 1000 := by
    have habs : |((1000 : Int) : ℚ) - wrapState.smoothValue| = ((1000 : Nat) : ℚ) := by
      norm_num [wrapState, zeroState]
    rw [habs, toUInt_natCast]
  have key : getResponsiveValue wrapState 1000 4294967246 =
      (0, { wrapState with lastActivityMS := 4294967246, sleeping := true }) := by
    unfold getResponsiveValue
    rw [hd]
    simp [wrapState, zeroState, ULONG_MOD, toInt]
  rw [key]
  refine ⟨rfl, rfl, by norm_num [ULONG_MOD], rfl, ?_, rfl, ?_, rfl, rfl⟩
  · norm_num [wrapState, zeroState, ULONG_MOD]
  · norm_num [wrapState, zeroState]

/-- Witness of C20: the state built by the constructor with the multiplier `7`, and the
sample `1000`. -/
theorem C20_no_division_by_zero_witness :
    Reachable builtState ∧
      (0 ≤ ((toUInt |((1000 : Int) : ℚ) - builtState.smoothValue| : Nat) : ℚ) *
          builtState.snapMultiplier ∧
        1 ≤ ((toUInt |((1000 : Int) : ℚ) - builtState.smoothValue| : Nat) : ℚ) *
          builtState.snapMultiplier + 1 ∧
        ((toUInt |((1000 : Int) : ℚ) - builtState.smoothValue| : Nat) : ℚ) *
          builtState.snapMultiplier + 1 ≠ 0 ∧
        ((toUInt |((1000 : Int) : ℚ) - builtState.smoothValue| : Nat) : ℚ) *
          builtState.snapMultiplier ≠ -1) :=
  ⟨Reachable.construct _ _ _ _,
    C20_no_division_by_zero builtState 1000 (Reachable.construct _ _ _ _)⟩

end ResponsiveAnalogRead

namespace ResponsiveAnalogRead

section Rounding

variable {K : Type} [LinearOrderedField K] [FloorRing K]

/-! ## Rounding to binary32 -/

/-- A number less than `1 / 2` away from an integer is rounded to it. -/
theorem roundHalfEven_of_abs_lt {x : K} {n : Int} (h : |x - (n : K)| < 1 / 2) :
    roundHalfEven x = n := by
  obtain ⟨h1, h2⟩ := abs_lt.mp h
  unfold roundHalfEven
  rcases le_or_lt (n : K) x with hx | hx
  · have hf : ⌊x⌋ = n := Int.floor_eq_iff.mpr ⟨hx, by linarith⟩
    simp only [hf]
    rw [if_pos h2]
  · have hf : ⌊x⌋ = n - 1 :=
      Int.floor_eq_iff.mpr ⟨by push_cast; linarith, by push_cast; linarith⟩
    simp only [hf]
    rw [if_neg (by push_cast; linarith), if_pos (by push_cast; linarith)]
    ring

/-- The rounding to binary32 of a number with binary exponent `e`, from the rounding of its
significand. -/
theorem binary32_eq {x : K} {e m : Int} (he : -126 ≤ e) (hlo : (2 : K) ^ e ≤ |x|)
    (hhi : |x| < (2 : K) ^ (e + 1)) (hm : roundHalfEven (x / (2 : K) ^ (e - 23)) = m) :
    binary32 x = (m : K) * (2 : K) ^ (e - 23) := by
  have hpos : (0 : K) < |x| := lt_of_lt_of_le (zpow_pos (by norm_num) e) hlo
  have h1 : e ≤ Int.log 2 |x| := by
    rw [← Int.zpow_le_iff_le_log (by norm_num) hpos]
    exact_mod_cast hlo
  have h2 : Int.log 2 |x| < e + 1 := by
    rw [← Int.lt_zpow_iff_log_lt (by norm_num) hpos]
    exact_mod_cast hhi
  have hlog : Int.log 2 |x| = e := by omega
  unfold binary32
  simp only [hlog, max_eq_left he, hm]

/-- A number with a significand of 24 bits and an exponent in range is a binary32 value. -/
theorem binary32_representable {x : K} (m e : Int) (hx : x = (m : K) * (2 : K) ^ (e - 23))
    (he : -126 ≤ e) (hm1 : 2 ^ 23 ≤ |m|) (hm2 : |m| < 2 ^ 24) : binary32 x = x := by
  have hp : (0 : K) < (2 : K) ^ (e - 23) := zpow_pos (by norm_num) _
  have habs : |x| = ((|m| : Int) : K) * (2 : K) ^ (e - 23) := by
    rw [hx, abs_mul, abs_of_pos hp, Int.cast_abs]
  have e1 : (2 : K) ^ e = (2 : K) ^ (23 : Nat) * (2 : K) ^ (e - 23) := by
    rw [← zpow_natCast, ← zpow_add₀ (by norm_num : (2 : K) ≠ 0)]
    congr 1
    omega
  have e2 : (2 : K) ^ (e + 1) = (2 : K) ^ (24 : Nat) * (2 : K) ^ (e - 23) := by
    rw [← zpow_natCast, ← zpow_add₀ (by norm_num : (2 : K) ≠ 0)]
    congr 1
    omega
  have hr : roundHalfEven (x / (2 : K) ^ (e - 23)) = m := by
    rw [hx, mul_div_assoc, div_self hp.ne', mul_one]
    exact roundHalfEven_of_abs_lt (by simp)
  rw [binary32_eq he ?_ ?_ hr, ← hx]
  · rw [habs, e1]
    exact mul_le_mul_of_nonneg_right (by exact_mod_cast hm1) hp.le
  · rw [habs, e2]
    exact mul_lt_mul_of_pos_right (by exact_mod_cast hm2) hp

end Rounding

end ResponsiveAnalogRead

namespace ResponsiveAnalogRead

section RoundedCode

variable {K : Type} [LinearOrderedField K] [FloorRing K]

/-! ## The functions with rounded arithmetic -/

/-- With `rnd = id` the rounded functions are the functions in exact arithmetic. -/
theorem rounded_id (s : ResponsiveAnalogRead K) (x : K) (raw : Int) (ms : Nat)
    (samples : Nat → Int) (clock : Nat → Nat) :
    Rounded.snapCurve id x = snapCurve x ∧
      Rounded.getResponsiveValue id s raw ms = getResponsiveValue s raw ms ∧
      Rounded.update id s raw ms = update s raw ms ∧
      ∀ n, Rounded.run id s samples clock n = run s samples clock n := by
  refine ⟨rfl, rfl, rfl, fun n => ?_⟩
  induction n with
  | zero => rfl
  | succ n ih =>
    show Rounded.update id (Rounded.run id s samples clock n) (samples n) (clock n) =
      update (run s samples clock n) (samples n) (clock n)
    rw [ih]
    rfl

omit [FloorRing K] in
/-- The rounded `snapCurve`, from the results of its four operations. -/
theorem rounded_snapCurve_trace (rnd : K → K) {x y1 y2 y3 y4 : K} (h1 : rnd (x + 1) = y1)
    (h2 : rnd (1 / y1) = y2) (h3 : rnd (1 - y2) = y3) (h4 : rnd (y3 * 2) = y4) :
    Rounded.snapCurve rnd x = if y4 > 1 then 1 else y4 := by
  subst h1 h2 h3 h4
  rfl

/-- The rounded `update` with sleep disabled, from the results of its operations: `v` is the
sample as a `float`, `d` the difference to the estimate, `diff` its integer part, `x` the
argument of the snap curve, `snap` its value, `p` the step and `w` the new estimate. -/
theorem rounded_update_trace (rnd : K → K) (s : ResponsiveAnalogRead K) (raw : Int) (ms : Nat)
    {v d x snap p w : K} {diff : Nat} (hen : s.sleepEnable = false)
    (hv : rnd (raw : K) = v) (hd : rnd (v - s.smoothValue) = d) (hdiff : toUInt |d| = diff)
    (hx : rnd (rnd (diff : K) * s.snapMultiplier) = x)
    (hsnap : Rounded.snapCurve rnd x = snap) (hp : rnd (d * snap) = p)
    (hw : rnd (s.smoothValue + p) = w) :
    (Rounded.getResponsiveValue rnd s raw ms).1 = toInt w ∧
      (Rounded.getResponsiveValue rnd s raw ms).2.smoothValue = w ∧
      (Rounded.update rnd s raw ms).smoothValue = w ∧
      (Rounded.update rnd s raw ms).responsiveValue = toInt w ∧
      (Rounded.update rnd s raw ms).sleepEnable = false ∧
      (Rounded.update rnd s raw ms).snapMultiplier = s.snapMultiplier := by
  subst hv hd hdiff hx hsnap hp hw
  unfold Rounded.update Rounded.getResponsiveValue
  simp [hen]

end RoundedCode

/-! ## Three traces in binary32 -/

end ResponsiveAnalogRead

namespace ResponsiveAnalogRead

end ResponsiveAnalogRead

namespace ResponsiveAnalogRead

end ResponsiveAnalogRead

namespace ResponsiveAnalogRead

end ResponsiveAnalogRead

namespace ResponsiveAnalogRead

/-- The scenario of the specification in binary32: from `snapState` (sleep disabled,
`snapMultiplier = 1`, `smoothValue = 0`) the sample `1000` gives the snap factor `1` and the
call returns `1000`. -/
theorem snapState_binary32 :
    (Rounded.getResponsiveValue binary32 snapState 1000 7).1 = 1000 ∧
      (Rounded.getResponsiveValue binary32 snapState 1000 7).2.smoothValue = 1000 := by
  have b1000 : binary32 (1000 : ℚ) = 1000 :=
    binary32_representable (125 * 2 ^ 17) 9 (by norm_num) (by norm_num) (by norm_num)
      (by norm_num)
  have hsnap : Rounded.snapCurve binary32 (1000 : ℚ) = 1 := by
    have h1 : binary32 ((1000 : ℚ) + 1) = 1001 := by
      have e : (1000 : ℚ) + 1 = 1001 := by norm_num
      rw [e]
      exact binary32_representable (1001 * 2 ^ 14) 9 (by norm_num) (by norm_num)
        (by norm_num) (by norm_num)
    have h2 : binary32 ((1 : ℚ) / 1001) = 8581353 / 2 ^ 33 := by
      rw [binary32_eq (e := -10) (m := 8581353) (by norm_num) (by norm_num [abs_of_pos])
        (by norm_num [abs_of_pos]) (roundHalfEven_of_abs_lt (by norm_num [abs_lt]))]
      norm_num
    have h3 : binary32 ((1 : ℚ) - 8581353 / 2 ^ 33) = 16760456 / 2 ^ 24 := by
      rw [binary32_eq (e := -1) (m := 16760456) (by norm_num) (by norm_num [abs_of_pos])
        (by norm_num [abs_of_pos]) (roundHalfEven_of_abs_lt (by norm_num [abs_lt]))]
      norm_num
    have h4 : binary32 ((16760456 / 2 ^ 24 : ℚ) * 2) = 16760456 / 2 ^ 23 := by
      have e : (16760456 / 2 ^ 24 : ℚ) * 2 = 16760456 / 2 ^ 23 := by norm_num
      rw [e]
      exact binary32_representable 16760456 0 (by norm_num) (by norm_num) (by norm_num)
        (by norm_num)
    rw [rounded_snapCurve_trace binary32 h1 h2 h3 h4]
    norm_num
  have hv : binary32 ((1000 : Int) : ℚ) = 1000 := by norm_num [b1000]
  have hd : binary32 ((1000 : ℚ) - snapState.smoothValue) = 1000 := by
    norm_num [snapState, zeroState, b1000]
  have hdiff : toUInt |(1000 : ℚ)| = 1000 := by
    rw [abs_of_pos (by norm_num)]
    exact toUInt_eq (by norm_num) (by norm_num)
  have hx : binary32 (binary32 ((1000 : Nat) : ℚ) * snapState.snapMultiplier) = 1000 := by
    norm_num [snapState, zeroState, b1000]
  have hp : binary32 ((1000 : ℚ) * 1) = 1000 := by
    rw [mul_one]
    exact b1000
  have hw : binary32 (snapState.smoothValue + 1000) = 1000 := by
    norm_num [snapState, zeroState, b1000]
  have ht : toInt (1000 : ℚ) = 1000 := by exact_mod_cast toInt_intCast (K := ℚ) 1000
  have t := rounded_update_trace binary32 snapState 1000 7 rfl hv hd hdiff hx hsnap hp hw
  exact ⟨t.1.trans ht, t.2.1⟩

end ResponsiveAnalogRead
